import Mathlib

/-!
# Verification of the algtrax execution-to-animation pipeline

A shallow embedding, in Lean 4, of the trace generators, the playback
controller, the bar renderer's role assignment, the trace store and the
export progress reporting of the algtrax repository, together with proofs
and refutations of the specified properties.

Conventions of the embedding:
* JavaScript `number` is modelled as `ℚ` (the generators only copy and
  compare array values, never round them, so the order structure is all
  that matters); `Infinity` is modelled as `⊤` in `WithTop ℚ` where it
  occurs (Dijkstra and A* distance maps).
* 32-bit integer coercion (`| 0`, `& 0xffffffff`, `<<`) is modelled
  explicitly through `toInt32` on `Int`.
* JavaScript arrays are Lean lists; `Set`/`Map` with insertion-order
  iteration are insertion-ordered lists / association lists.
* `undefined` that can reach a value position is modelled with `Option`.
* `while` loops whose termination argument is not structural are given
  explicit fuel larger than the real iteration count; every claim proved
  below depends only on prefixes of the trace that are emitted before any
  fuel could run out, or on concrete inputs where the fuel is evaluated.
-/

namespace Algtrax

/-- JavaScript `ToInt32`: reduce an integer modulo 2^32 into the signed
range `[-2^31, 2^31)`.  This is what `& 0xffffffff` (and `<< 5`) perform
on the accumulator of the string hash in `hash-table-search.ts`. -/
def toInt32 (n : Int) : Int :=
  let m := n.emod 4294967296
  if m < 2147483648 then m else m - 4294967296

/-- The destructuring swap `[a[i], a[j]] = [a[j], a[i]]` used by the
sorting generators (always called in bounds). -/
def listSwap (l : List ℚ) (i j : Nat) : List ℚ :=
  (l.set i (l.getD j 0)).set j (l.getD i 0)

/-! ## Bubble sort (`bubble-sort.ts`) -/

namespace BubbleSort

/-- The `BarState` of `bubble-sort.ts`. -/
structure BarState where
  values    : List ℚ
  comparing : List Nat
  swapping  : List Nat
  sorted    : List Nat
deriving Repr, DecidableEq

/-- The `Array.from({length: k}, (_, index) => n - 1 - index)`: the indices the
sorter marks as sorted after `k` completed passes over an `n`-element array. -/
def sortedMarks (k n : Nat) : List Nat :=
  (List.range k).map (fun index => n - 1 - index)

/-- Inner `for (let j = 0; j < n - i - 1; j++)` loop of `bubbleSort`:
the loop body runs exactly `n - i - 1` times, so we recurse structurally on
the remaining iteration count `steps` while `j` counts up from 0.  Returns
the emitted states and the array after the pass. -/
def innerPass (i n : Nat) : Nat → Nat → List ℚ → List BarState × List ℚ
  | 0, _, array => ([], array)
  | steps + 1, j, array =>
    let cmp : BarState := ⟨array, [j, j + 1], [], sortedMarks i n⟩
    if array.getD j 0 > array.getD (j + 1) 0 then
      let swapping : BarState := ⟨array, [], [j, j + 1], sortedMarks i n⟩
      let array' := listSwap array j (j + 1)
      let afterSwap : BarState := ⟨array', [], [], sortedMarks i n⟩
      let (rest, arrOut) := innerPass i n steps (j + 1) array'
      (cmp :: swapping :: afterSwap :: rest, arrOut)
    else
      let (rest, arrOut) := innerPass i n steps (j + 1) array
      (cmp :: rest, arrOut)

/-- Outer `for (let i = 0; i < n - 1; i++)` loop of `bubbleSort`: it runs
exactly `n - 1` times; `steps` is the remaining iteration count. -/
def outerLoop (n : Nat) : Nat → Nat → List ℚ → List BarState × List ℚ
  | 0, _, array => ([], array)
  | steps + 1, i, array =>
    let (sts, arr') := innerPass i n (n - i - 1) 0 array
    let passEnd : BarState := ⟨arr', [], [], sortedMarks (i + 1) n⟩
    let (rest, arrOut) := outerLoop n steps (i + 1) arr'
    (sts ++ passEnd :: rest, arrOut)

/-- The `bubbleSort` of `bubble-sort.ts`: the initial snapshot followed by the
states emitted by the two nested loops. -/
def bubbleSort (arr : List ℚ) : List BarState :=
  ⟨arr, [], [], []⟩ :: (outerLoop arr.length (arr.length - 1) 0 arr).1

end BubbleSort

/-! ## Playback controller (`visualiser.tsx`) -/

namespace Playback

/-- The playback-relevant component state of `Visualiser`: the cursor
`currentState` and the `isPlaying` flag.  The cursor is modelled as `Int`
so that the lower bound `0 ≤ position` is a statement about the code, not
about the type. -/
structure PlaybackState where
  currentState : Int
  isPlaying    : Bool
deriving Repr, DecidableEq

/-- The `playAnimation`: if there are states, set `isPlaying` and reset the
cursor to 0.  (The source resets unconditionally, not only at the end.) -/
def playAnimation (n : Nat) (s : PlaybackState) : PlaybackState :=
  if 0 < n then { currentState := 0, isPlaying := true } else s

/-- The `pauseAnimation`: stop playing, keep the cursor. -/
def pauseAnimation (s : PlaybackState) : PlaybackState :=
  { s with isPlaying := false }

/-- The `resetAnimation`: stop playing and move the cursor to 0. -/
def resetAnimation (_ : PlaybackState) : PlaybackState :=
  { currentState := 0, isPlaying := false }

/-- The `nextStep`: advance if `currentState < states.length - 1`. -/
def nextStep (n : Nat) (s : PlaybackState) : PlaybackState :=
  if s.currentState < (n : Int) - 1 then
    { s with currentState := s.currentState + 1 }
  else s

/-- The `prevStep`: go back if `currentState > 0`. -/
def prevStep (s : PlaybackState) : PlaybackState :=
  if s.currentState > 0 then { s with currentState := s.currentState - 1 }
  else s

/-- One firing of the `setInterval` callback.  The interval only exists
while `isPlaying && states.length > 0`; the callback stops playback at the
last index and advances the cursor otherwise. -/
def tick (n : Nat) (s : PlaybackState) : PlaybackState :=
  if s.isPlaying ∧ 0 < n then
    if s.currentState ≥ (n : Int) - 1 then { s with isPlaying := false }
    else { s with currentState := s.currentState + 1 }
  else s

/-- The playback operations a user (or the timer) can perform. -/
inductive Op
  | play
  | pause
  | reset
  | next
  | prev
  | tick
deriving Repr, DecidableEq

/-- Apply one playback operation for a trace of length `n`. -/
def applyOp (n : Nat) (s : PlaybackState) : Op → PlaybackState
  | .play  => playAnimation n s
  | .pause => pauseAnimation s
  | .reset => resetAnimation s
  | .next  => nextStep n s
  | .prev  => prevStep s
  | .tick  => tick n s

/-- Apply a finite sequence of playback operations. -/
def applyOps (n : Nat) (s : PlaybackState) (ops : List Op) : PlaybackState :=
  ops.foldl (applyOp n) s

/-- The cursor state the Visualiser mounts with. -/
def initialState : PlaybackState := ⟨0, false⟩

/-- The cursor bound invariant: position within `[0, n-1]`. -/
def InBounds (n : Nat) (s : PlaybackState) : Prop :=
  0 ≤ s.currentState ∧ s.currentState ≤ (n : Int) - 1

end Playback

/-! ## Bar renderer role assignment (`renderBars` in `visualiser.tsx`) -/

namespace Render

/-- The visual roles the bar renderer can assign to an index. -/
inductive BarRole
  | normal
  | comparing
  | swapping
  | sorted
  | pivot
  | left
  | right
  | partition
  | searching
  | found
deriving Repr, DecidableEq

/-- The `if/else-if` chain of `renderBars` that picks the status of the bar
at `index` from the current snapshot's role sets (`key` is the scalar field
some snapshots carry; `key === index` renders as the pivot colour). -/
def barStatus (comparing swapping sorted : List Nat) (key : Option Int)
    (left right pivot partition searching found : List Nat) (index : Nat) :
    BarRole :=
  if comparing.contains index then .comparing
  else if swapping.contains index then .swapping
  else if sorted.contains index then .sorted
  else if key == some (index : Int) then .pivot
  else if left.contains index then .left
  else if right.contains index then .right
  else if pivot.contains index then .pivot
  else if partition.contains index then .partition
  else if searching.contains index then .searching
  else if found.contains index then .found
  else .normal

/-- First-match role assignment over an explicit precedence list: the role
paired with the first test that holds, `normal` otherwise.  Used to state
which precedence order the renderer actually implements. -/
def firstMatch : List (BarRole × Bool) → BarRole
  | [] => .normal
  | (role, hit) :: rest => if hit then role else firstMatch rest

end Render

/-! ## Hash table search (`hash-table-search.ts`) -/

namespace HashTable

/-- One entry of a bucket chain (`HashNode`).  `values[i]` is `undefined`
when the key list is longer than the value list, hence `Option ℚ`. -/
structure HashNode where
  key   : String
  value : Option ℚ
deriving Repr, DecidableEq

/-- A bucket is its chain in list order (`null` is the empty chain). -/
abbrev Bucket := List HashNode

/-- The `HashTableState` of `hash-table-search.ts`.  The `-1` sentinels of
`currentBucket`, `currentNode` and `hashValue` force `Int`. -/
structure HashTableState where
  buckets       : List Bucket
  searchKey     : String
  currentBucket : Int
  currentNode   : Int
  found         : Bool
  searchPath    : List Nat
  hashValue     : Int
deriving Repr, DecidableEq

/-- One step of the accumulator of the inner `hash` function:
`hash = ((hash << 5) - hash + key.charCodeAt(i)) & 0xffffffff`.
All keys in play are ASCII, so `charCodeAt` agrees with `Char.toNat`. -/
def hashStep (h : Int) (c : Nat) : Int :=
  toInt32 (toInt32 (32 * h) - h + c)

/-- The table size fixed by the source (`const size = 10`). -/
def tableSize : Nat := 10

/-- The inner `hash` function: fold `hashStep` over the key's characters,
then `Math.abs(hash) % size`. -/
def hashString (key : String) : Nat :=
  (key.data.foldl (fun h ch => hashStep h ch.toNat) 0).natAbs % tableSize

/-- Insert one key/value pair: append a fresh node at the end of the chain
of bucket `hash key` (`null` buckets start a one-node chain). -/
def bucketsInsert (buckets : List Bucket) (key : String) (value : Option ℚ) :
    List Bucket :=
  let index := hashString key
  buckets.set index (buckets.getD index [] ++ [⟨key, value⟩])

/-- The `for (let i = 0; i < keys.length; i++)` insertion loop that builds
the table from the input lists (missing values are `undefined`). -/
def buildBuckets (keys : List String) (values : List ℚ) : List Bucket :=
  (List.range keys.length).foldl
    (fun buckets i => bucketsInsert buckets (keys.getD i "") values[i]?)
    (List.replicate tableSize [])

/-- The `while (current !== null)` chain walk of the search.  Each
iteration pushes a checking state; on a key match it pushes a found state
and breaks; otherwise it advances and, when the next node exists, pushes a
stepping state; when the chain is exhausted it pushes the not-found state
(the `current === null` branch after the loop). -/
def chainWalk (buckets : List Bucket) (searchKey : String) (hv : Nat) :
    List HashNode → Nat → List HashTableState
  | [], _ =>
    -- the loop condition is false at once: only the trailing not-found
    -- state is emitted (unreachable from `hashTableSearch`, which only
    -- enters the walk on a non-empty chain)
    [⟨buckets, searchKey, hv, -1, false, [hv], hv⟩]
  | node :: rest, nodeIndex =>
    let checking : HashTableState :=
      ⟨buckets, searchKey, hv, nodeIndex, node.key == searchKey, [hv], hv⟩
    if node.key = searchKey then
      [checking, ⟨buckets, searchKey, hv, nodeIndex, true, [hv], hv⟩]
    else
      match rest with
      | [] =>
        -- `current` becomes null: exit the loop and push the not-found state
        [checking, ⟨buckets, searchKey, hv, -1, false, [hv], hv⟩]
      | next :: rest' =>
        checking
          :: ⟨buckets, searchKey, hv, nodeIndex + 1, false, [hv], hv⟩
          :: chainWalk buckets searchKey hv (next :: rest') (nodeIndex + 1)

/-- The `hashTableSearch` of `hash-table-search.ts`: build the table, emit the
initial and hash-calculation states, then search bucket `hash searchKey`. -/
def hashTableSearch (keys : List String) (values : List ℚ)
    (searchKey : String) : List HashTableState :=
  let buckets := buildBuckets keys values
  let hv := hashString searchKey
  let searchStates :=
    match buckets.getD hv [] with
    | [] =>
      [⟨buckets, searchKey, hv, -1, false, [hv], hv⟩]
    | node :: rest =>
      ⟨buckets, searchKey, hv, 0, false, [hv], hv⟩
        :: chainWalk buckets searchKey hv (node :: rest) 0
  ⟨buckets, searchKey, -1, -1, false, [], -1⟩
    :: ⟨buckets, searchKey, -1, -1, false, [], hv⟩
    :: searchStates

end HashTable

/-! ## Insertion sort (`insertion-sort.ts`) -/

namespace InsertionSort

/-- The `BarState` of `insertion-sort.ts`; `key` is the index of the element
being inserted, `-1` when none. -/
structure BarState where
  values    : List ℚ
  comparing : List Nat
  swapping  : List Nat
  sorted    : List Nat
  key       : Int
deriving Repr, DecidableEq

/-- The `while (j >= 0 && array[j] > key)` shifting loop.  `j` starts at
`i - 1` and decreases, so the loop runs at most `i` times; `fuel = i`
bounds it structurally while the source's guard is checked each step.
Returns the emitted states, the final `j` and the shifted array. -/
def shiftLoop (i : Nat) (keyVal : ℚ) :
    Nat → Int → List ℚ → List BarState × Int × List ℚ
  | 0, j, array => ([], j, array)
  | fuel + 1, j, array =>
    if 0 ≤ j ∧ array.getD j.toNat 0 > keyVal then
      let comparing : BarState :=
        ⟨array, [j.toNat, j.toNat + 1], [], List.range i, (i : Int)⟩
      let shifting : BarState :=
        ⟨array, [], [j.toNat, j.toNat + 1], List.range i, (i : Int)⟩
      let array' := array.set (j.toNat + 1) (array.getD j.toNat 0)
      let afterShift : BarState := ⟨array', [], [], List.range i, (i : Int)⟩
      let (rest, jOut, arrOut) := shiftLoop i keyVal fuel (j - 1) array'
      (comparing :: shifting :: afterShift :: rest, jOut, arrOut)
    else
      ([], j, array)

/-- Outer `for (let i = 1; i < n; i++)` loop of `insertionSort` (`steps`
is the remaining iteration count, `n - 1` at the first call). -/
def outerLoop (n : Nat) : Nat → Nat → List ℚ → List BarState × List ℚ
  | 0, _, array => ([], array)
  | steps + 1, i, array =>
    let keyVal := array.getD i 0
    let keyState : BarState := ⟨array, [], [], List.range i, (i : Int)⟩
    let (shiftStates, j, array') :=
      shiftLoop i keyVal i ((i : Int) - 1) array
    let array'' := array'.set (j + 1).toNat keyVal
    let passEnd : BarState := ⟨array'', [], [], List.range (i + 1), -1⟩
    let (rest, arrOut) := outerLoop n steps (i + 1) array''
    (keyState :: shiftStates ++ passEnd :: rest, arrOut)

/-- The `insertionSort` of `insertion-sort.ts`: the initial snapshot (index 0
already marked sorted) followed by the loop states. -/
def insertionSort (arr : List ℚ) : List BarState :=
  ⟨arr, [], [], [0], -1⟩ :: (outerLoop arr.length (arr.length - 1) 1 arr).1

end InsertionSort

/-! ## Linear search (`linear-search.ts`) -/

namespace LinearSearch

/-- The `BarState` of `linear-search.ts`. -/
structure BarState where
  values    : List ℚ
  comparing : List Nat
  swapping  : List Nat
  sorted    : List Nat
  searching : List Nat
  found     : List Nat
  target    : ℚ
deriving Repr, DecidableEq

/-- The `for (let i = 0; i < array.length; i++)` loop with its `break` on a
match (`steps` is the remaining iteration count). -/
def searchLoop (array : List ℚ) (target : ℚ) :
    Nat → Nat → List BarState
  | 0, _ => []
  | steps + 1, i =>
    let checking : BarState := ⟨array, [i], [], [], [i], [], target⟩
    if array.getD i 0 = target then
      [checking, ⟨array, [], [], [], [], [i], target⟩]
    else
      checking :: ⟨array, [], [], [], [], [], target⟩
        :: searchLoop array target steps (i + 1)

/-- The `linearSearch` of `linear-search.ts`: initial snapshot, the scan, and
— when the target is absent — a trailing exhausted state. -/
def linearSearch (arr : List ℚ) (target : ℚ) : List BarState :=
  ⟨arr, [], [], [], [], [], target⟩
    :: searchLoop arr target arr.length 0
    ++ (if arr.contains target then [] else [⟨arr, [], [], [], [], [], target⟩])

end LinearSearch

/-! ## Binary search (`binary-search.ts`) -/

namespace BinarySearch

/-- The `BarState` of `binary-search.ts`; `left`, `right`, `mid` carry `-1`
sentinels, hence `Int`, and the highlight lists hold the same numbers the
source computes from them. -/
structure BarState where
  values    : List ℚ
  comparing : List Int
  searching : List Int
  found     : List Int
  target    : ℚ
  left      : Int
  right     : Int
  mid       : Int
deriving Repr, DecidableEq

/-- The `Array.from({length: right - left + 1}, (_, i) => left + i)`. -/
def searchRange (left right : Int) : List Int :=
  (List.range (right + 1 - left).toNat).map (fun i => left + (i : Int))

/-- The `while (left <= right)` loop.  Each iteration shrinks
`right - left`, so `array.length + 2` fuel is more than enough; the
source's guard is checked each step.  The boolean records whether the
`return` inside the loop fired (target found). -/
def binLoop (array : List ℚ) (target : ℚ) :
    Nat → Int → Int → List BarState × Bool
  | 0, _, _ => ([], false)
  | fuel + 1, left, right =>
    if left ≤ right then
      let mid := (left + right).fdiv 2
      let comparing : BarState :=
        ⟨array, [mid], searchRange left right, [], target, left, right, mid⟩
      if array.getD mid.toNat 0 = target then
        ([comparing, ⟨array, [], [], [mid], target, left, right, mid⟩], true)
      else if array.getD mid.toNat 0 > target then
        let right' := mid - 1
        let narrowed : BarState :=
          ⟨array, [], searchRange left right', [], target, left, right', mid⟩
        let (rest, flag) := binLoop array target fuel left right'
        (comparing :: narrowed :: rest, flag)
      else
        let left' := mid + 1
        let narrowed : BarState :=
          ⟨array, [], searchRange left' right, [], target, left', right, mid⟩
        let (rest, flag) := binLoop array target fuel left' right
        (comparing :: narrowed :: rest, flag)
    else ([], false)

/-- The `binarySearch` of `binary-search.ts`: the initial full-range snapshot,
the loop, and the not-found state when the loop exhausts the range. -/
def binarySearch (arr : List ℚ) (target : ℚ) : List BarState :=
  let n := arr.length
  let run := binLoop arr target (n + 2) 0 ((n : Int) - 1)
  ⟨arr, [], (List.range n).map (fun i => (i : Int)), [], target, 0,
      (n : Int) - 1, -1⟩
    :: run.1
    ++ (if run.2 then [] else [⟨arr, [], [], [], target, -1, -1, -1⟩])

end BinarySearch

/-! ## Merge sort (`merge-sort.ts`) -/

namespace MergeSort

/-- The `BarState` of `merge-sort.ts`. -/
structure BarState where
  values    : List ℚ
  comparing : List Nat
  swapping  : List Nat
  sorted    : List Nat
  left      : List Nat
  right     : List Nat
  merging   : Bool
deriving Repr, DecidableEq

/-- The `Array.from({length: len}, (_, idx) => start + idx)`. -/
def rangeFrom (start len : Nat) : List Nat :=
  (List.range len).map (fun idx => start + idx)

/-- Overwrite `array[start + k] := vals[k]` for every `k`
(the `for (let k = 0; ...) currentArray[startIndex + k] = result[k]`
write-back loops). -/
def writeSlice (array : List ℚ) (start : Nat) (vals : List ℚ) : List ℚ :=
  vals.enum.foldl (fun a kv => a.set (start + kv.1) kv.2) array

/-- The merged contents of two runs (what `result` holds after `merge`
finishes): take from the left run while `left[i] <= right[j]`. -/
def mergeLists : List ℚ → List ℚ → List ℚ
  | [], r => r
  | l, [] => l
  | a :: l, b :: r =>
    if a ≤ b then a :: mergeLists l (b :: r)
    else b :: mergeLists (a :: l) r
termination_by l r => l.length + r.length

/-- The main `while (i < left.length && j < right.length)` loop of `merge`.

The source pushes the comparing state with `values: currentArray` — the
*live object*, not a copy — and mutates that object afterwards, so by the
time the trace is observed those states show the fully merged slice
`finalValues`; the post-step states are pushed as copies and show the
intermediate array.  `cur` is the intermediate `currentArray`, `res` the
`result` accumulator. -/
def mergeMainLoop (leftL rightL : List ℚ) (startIndex : Nat)
    (finalValues : List ℚ) :
    List ℚ → List ℚ → Nat → Nat → List ℚ → List ℚ →
      List BarState × List ℚ × List ℚ × List ℚ × List ℚ
  | a :: lrest, b :: rrest, i, j, cur, res =>
    let comparing : BarState :=
      ⟨finalValues, [startIndex + i, startIndex + leftL.length + j], [],
        rangeFrom 0 startIndex,
        rangeFrom startIndex leftL.length,
        rangeFrom (startIndex + leftL.length) rightL.length, true⟩
    if a ≤ b then
      let res' := res ++ [a]
      let cur' := writeSlice cur startIndex res'
      let afterStep : BarState :=
        ⟨cur', [], [], rangeFrom 0 (startIndex + res'.length),
          rangeFrom startIndex leftL.length,
          rangeFrom (startIndex + leftL.length) rightL.length, true⟩
      let (rest, curOut, resOut, lOut, rOut) :=
        mergeMainLoop leftL rightL startIndex finalValues
          lrest (b :: rrest) (i + 1) j cur' res'
      (comparing :: afterStep :: rest, curOut, resOut, lOut, rOut)
    else
      let res' := res ++ [b]
      let cur' := writeSlice cur startIndex res'
      let afterStep : BarState :=
        ⟨cur', [], [], rangeFrom 0 (startIndex + res'.length),
          rangeFrom startIndex leftL.length,
          rangeFrom (startIndex + leftL.length) rightL.length, true⟩
      let (rest, curOut, resOut, lOut, rOut) :=
        mergeMainLoop leftL rightL startIndex finalValues
          (a :: lrest) rrest i (j + 1) cur' res'
      (comparing :: afterStep :: rest, curOut, resOut, lOut, rOut)
  | lrest, rrest, _, _, cur, res => ([], cur, res, lrest, rrest)
termination_by lrest rrest _ _ _ _ => lrest.length + rrest.length
decreasing_by all_goals simp +arith [List.length]

/-- A remainder-draining `while` loop of `merge`; each drained element
pushes one copied state. -/
def mergeDrain (leftL rightL : List ℚ) (startIndex : Nat) :
    List ℚ → List ℚ → List ℚ → List BarState × List ℚ × List ℚ
  | [], cur, res => ([], cur, res)
  | x :: xs, cur, res =>
    let res' := res ++ [x]
    let cur' := writeSlice cur startIndex res'
    let st : BarState :=
      ⟨cur', [], [], rangeFrom 0 (startIndex + res'.length),
        rangeFrom startIndex leftL.length,
        rangeFrom (startIndex + leftL.length) rightL.length, true⟩
    let (rest, curOut, resOut) :=
      mergeDrain leftL rightL startIndex xs cur' res'
    (st :: rest, curOut, resOut)

/-- The `merge(left, right, startIndex)` of `merge-sort.ts`, acting on the
snapshot `array` current at call time.  Returns the emitted states and the
merged `result` (the caller writes it back to the shared array). -/
def merge (leftL rightL : List ℚ) (startIndex : Nat) (array : List ℚ) :
    List BarState × List ℚ :=
  let finalValues := writeSlice array startIndex (mergeLists leftL rightL)
  let firstState : BarState :=
    ⟨finalValues, [], [], [],
      rangeFrom startIndex leftL.length,
      rangeFrom (startIndex + leftL.length) rightL.length, true⟩
  let (mainStates, cur, res, lrest, rrest) :=
    mergeMainLoop leftL rightL startIndex finalValues leftL rightL 0 0 array []
  let (leftStates, cur', res') :=
    mergeDrain leftL rightL startIndex lrest cur res
  let (rightStates, _, resOut) :=
    mergeDrain leftL rightL startIndex rrest cur' res'
  (firstState :: mainStates ++ leftStates ++ rightStates, resOut)

/-- The `mergeSortHelper(start, end)` of `merge-sort.ts`: divide, recurse,
merge, write back.  Returns the merged run, the array after the write-back
and the emitted states. -/
def mergeSortHelper :
    Nat → Nat → List ℚ → List ℚ × List ℚ × List BarState
  | start, stop, array =>
    if _h : stop - start ≤ 1 then
      ((array.drop start).take (stop - start), array, [])
    else
      let mid := (start + stop) / 2
      let divide : BarState :=
        ⟨array, [], [], [], rangeFrom start (mid - start),
          rangeFrom mid (stop - mid), false⟩
      let (leftRun, array1, sts1) := mergeSortHelper start mid array
      let (rightRun, array2, sts2) := mergeSortHelper mid stop array1
      let (mergeStates, merged) := merge leftRun rightRun start array2
      let array3 := writeSlice array2 start merged
      let closing : BarState :=
        ⟨array3, [], [], rangeFrom 0 stop, [], [], false⟩
      (merged, array3,
        divide :: sts1 ++ sts2 ++ mergeStates ++ [closing])
termination_by start stop _ => stop - start
decreasing_by all_goals omega

/-- The `mergeSort` of `merge-sort.ts`. -/
def mergeSort (arr : List ℚ) : List BarState :=
  ⟨arr, [], [], [], [], [], false⟩
    :: (mergeSortHelper 0 arr.length arr).2.2

end MergeSort

/-! ## Quick sort (`quick-sort.ts`) -/

namespace QuickSort

/-- The `BarState` of `quick-sort.ts`.  The recursion works over `Int` bounds
(`high` can reach `-1`), so the highlight lists carry `Int` indices. -/
structure BarState where
  values    : List ℚ
  comparing : List Int
  swapping  : List Int
  sorted    : List Int
  pivot     : List Int
  partition : List Int
  left      : List Int
  right     : List Int
deriving Repr, DecidableEq

/-- The `Array.from({length: high - low + 1}, (_, idx) => low + idx)`. -/
def partMarks (low high : Int) : List Int :=
  (List.range (high + 1 - low).toNat).map (fun idx => low + (idx : Int))

/-- The `Array.from({length: len}, (_, idx) => base + idx)` with an `Int`
base (the `left`/`right` context highlights). -/
def intRange (base : Int) (len : Nat) : List Int :=
  (List.range len).map (fun idx => base + (idx : Int))

/-- The `for (let j = low; j < high; j++)` scan of `partition` (`steps`
is the remaining iteration count `high - low`; `low ≥ 0` on every
reachable call, so `.toNat` indexing is exact). -/
def partitionScan (low high : Int) (pivotVal : ℚ) :
    Nat → Int → Int → List ℚ → List BarState × Int × List ℚ
  | 0, _, i, array => ([], i, array)
  | steps + 1, j, i, array =>
    let comparing : BarState :=
      ⟨array, [j, high], [], [], [high], partMarks low high, [], []⟩
    if array.getD j.toNat 0 ≤ pivotVal then
      let i' := i + 1
      if i' ≠ j then
        let swapping : BarState :=
          ⟨array, [], [i', j], [], [high], partMarks low high, [], []⟩
        let array' := listSwap array i'.toNat j.toNat
        let afterSwap : BarState :=
          ⟨array', [], [], [], [high], partMarks low high, [], []⟩
        let (rest, iOut, arrOut) :=
          partitionScan low high pivotVal steps (j + 1) i' array'
        (comparing :: swapping :: afterSwap :: rest, iOut, arrOut)
      else
        let (rest, iOut, arrOut) :=
          partitionScan low high pivotVal steps (j + 1) i' array
        (comparing :: rest, iOut, arrOut)
    else
      let (rest, iOut, arrOut) :=
        partitionScan low high pivotVal steps (j + 1) i array
      (comparing :: rest, iOut, arrOut)

/-- The `partition(low, high)` of `quick-sort.ts`: pivot selection state, the
scan, and the pivot placement; returns the states, the pivot's final index
`i + 1` and the array. -/
def partition (low high : Int) (array : List ℚ) :
    List BarState × Int × List ℚ :=
  let pivotVal := array.getD high.toNat 0
  let selectPivot : BarState :=
    ⟨array, [], [], [], [high], partMarks low high, [], []⟩
  let (scanStates, i, array') :=
    partitionScan low high pivotVal (high - low).toNat low (low - 1) array
  if i + 1 ≠ high then
    let swapping : BarState :=
      ⟨array', [], [i + 1, high], [], [high], partMarks low high, [], []⟩
    let array'' := listSwap array' (i + 1).toNat high.toNat
    let placed : BarState := ⟨array'', [], [], [i + 1], [], [], [], []⟩
    (selectPivot :: scanStates ++ [swapping, placed], i + 1, array'')
  else
    let placed : BarState := ⟨array', [], [], [i + 1], [], [], [], []⟩
    (selectPivot :: scanStates ++ [placed], i + 1, array')

/-- The `quickSortHelper(low, high)`.  The recursion depth is bounded by the
length of the interval, so `fuel = n + 2` can never run out for the
top-level call `quickSortHelper(0, n - 1)`; the source's guards are
checked at every step. -/
def quickSortHelper (n : Nat) :
    Nat → Int → Int → List ℚ → List BarState × List ℚ
  | 0, _, _, array => ([], array)
  | fuel + 1, low, high, array =>
    if low < high then
      let subarray : BarState :=
        ⟨array, [], [], [], [], [], intRange 0 low.toNat,
          intRange (high + 1) ((n : Int) - high - 1).toNat⟩
      let (partStates, pi, array') := partition low high array
      let partitioned : BarState :=
        ⟨array', [], [], [pi], [], [], intRange 0 pi.toNat,
          intRange (pi + 1) ((n : Int) - pi - 1).toNat⟩
      let (sts1, array'') := quickSortHelper n fuel low (pi - 1) array'
      let (sts2, arrOut) := quickSortHelper n fuel (pi + 1) high array''
      (subarray :: partStates ++ partitioned :: sts1 ++ sts2, arrOut)
    else if low = high then
      ([⟨array, [], [], [low], [], [], intRange 0 low.toNat,
          intRange (high + 1) ((n : Int) - high - 1).toNat⟩], array)
    else ([], array)

/-- The `quickSort` of `quick-sort.ts`: initial snapshot, the recursion's
states, and the closing all-sorted snapshot. -/
def quickSort (arr : List ℚ) : List BarState :=
  let n := arr.length
  let run := quickSortHelper n (n + 2) 0 ((n : Int) - 1) arr
  ⟨arr, [], [], [], [], [], [], []⟩
    :: run.1
    ++ [⟨run.2, [], [], intRange 0 n, [], [], [], []⟩]

end QuickSort

/-! ## Shared graph vocabulary

`bfs.ts` and `dfs.ts` declare structurally identical `Node`/`Edge`
interfaces and identical helpers; they are embedded once here. -/

namespace GraphBase

/-- Node statuses of `bfs.ts`/`dfs.ts`/`dijkstra` (`'end'` is rendered as
`endp` because `end` is a Lean keyword). -/
inductive NodeStatus
  | unvisited
  | visited
  | current
  | path
  | start
  | endp
deriving Repr, DecidableEq

/-- Edge statuses shared by every graph generator. -/
inductive EdgeStatus
  | normal
  | visited
  | path
  | current
deriving Repr, DecidableEq

/-- A graph node (`{id, x, y, status}`). -/
structure Node where
  id     : String
  x      : ℚ
  y      : ℚ
  status : NodeStatus
deriving Repr, DecidableEq

/-- A graph edge; `from`/`to` are Lean keywords, hence `fromId`/`toId`.
The weight is optional in `bfs.ts`/`dfs.ts`. -/
structure Edge where
  fromId : String
  toId   : String
  weight : Option ℚ
  status : EdgeStatus
deriving Repr, DecidableEq

/-- The `edges.filter(e => e.from === cur || e.to === cur).map(...)`: the
neighbor ids of `cur`, reading the *input* edge list. -/
def neighborsOf (edges : List Edge) (cur : String) : List String :=
  (edges.filter (fun e => e.fromId == cur || e.toId == cur)).map
    (fun e => if e.fromId = cur then e.toId else e.fromId)

/-- The node relabelling both traversals perform when they visit `cur`
(`vis` already contains `cur`). -/
def markCurrent (nodes : List Node) (cur : String) (vis : List String) :
    List Node :=
  nodes.map (fun nd =>
    { nd with
        status :=
          if nd.id = cur then .current
          else if nd.id ∈ vis then .visited
          else nd.status })

/-- Highlight the edge between `cur` and the neighbor just enqueued. -/
def markEdgeCurrent (edges : List Edge) (cur nb : String) : List Edge :=
  edges.map (fun e =>
    if (e.fromId = cur ∧ e.toId = nb) ∨ (e.toId = cur ∧ e.fromId = nb) then
      { e with status := .current }
    else e)

/-- Relabel the nodes on the reconstructed path. -/
def markPathNodes (nodes : List Node) (path : List String) : List Node :=
  nodes.map (fun nd =>
    if nd.id ∈ path then { nd with status := .path } else nd)

/-- Relabel the edges whose two endpoints lie on the reconstructed path. -/
def markPathEdges (edges : List Edge) (path : List String) : List Edge :=
  edges.map (fun e =>
    if e.fromId ∈ path ∧ e.toId ∈ path then { e with status := .path }
    else e)

end GraphBase

/-- The `parent.get(current) || start`: JavaScript falls back to `start` both
for a missing entry and for the falsy empty string. -/
def jsOrString (o : Option String) (d : String) : String :=
  match o with
  | none => d
  | some s => if s = "" then d else s

/-- The `reconstructPath` helper repeated verbatim in `bfs.ts`, `dfs.ts`,
`dijkstra.ts`, `tricolor-algorithm.ts` and `a-star.ts`: walk parent
pointers backward from `finish`, prepending, then prepend `start`.  The
walk shortens toward `start` in at most one step per distinct id; `fuel`
bounds it structurally. -/
def reconstructPath (parent : String → Option String) (start finish : String)
    (fuel : Nat) : List String :=
  let rec go : Nat → String → List String → List String
    | 0, _, path => path
    | fuel + 1, current, path =>
      if current = start then path
      else go fuel (jsOrString (parent current) start) (current :: path)
  start :: go fuel finish []

/-- The `endNode && current === endNode`: the optional goal was supplied, is
truthy (the empty string is falsy in JavaScript) and equals `cur`. -/
def endReached (endN : Option String) (cur : String) : Bool :=
  match endN with
  | some e => e != "" && cur == e
  | none => false

/-! ## Breadth-first search (`bfs.ts`) -/

namespace BFS

open GraphBase

/-- The `GraphState` of `bfs.ts`. -/
structure GraphState where
  nodes   : List Node
  edges   : List Edge
  queue   : List String
  visited : List String
  current : Option String
deriving Repr, DecidableEq

/-- The `for (const neighbor of neighbors)` loop: enqueue each unseen
neighbor, record its parent, highlight the edge and push a state.
Returns the final queue, parent map, edge list and the pushed states. -/
def neighborLoop (cur : String) (updatedNodes : List Node)
    (visited : List String) :
    List String → List String → (String → Option String) → List Edge →
      List String × (String → Option String) × List Edge × List GraphState
  | [], queue, parent, edges => (queue, parent, edges, [])
  | nb :: rest, queue, parent, edges =>
    if nb ∉ visited ∧ nb ∉ queue then
      let queue' := queue ++ [nb]
      let parent' := fun x => if x = nb then some cur else parent x
      let edges' := markEdgeCurrent edges cur nb
      let st : GraphState := ⟨updatedNodes, edges', queue', visited, some cur⟩
      let (qOut, pOut, eOut, sts) :=
        neighborLoop cur updatedNodes visited rest queue' parent' edges'
      (qOut, pOut, eOut, st :: sts)
    else
      neighborLoop cur updatedNodes visited rest queue parent edges

/-- The main `while (queue.length > 0)` loop.  Every id enters the queue
at most once (the push is guarded by membership in both `queue` and
`visited`), so the iteration count is bounded by the fuel chosen in
`breadthFirstSearch`.  `prevNodes`/`prevEdges` mirror
`states[states.length - 1]`. -/
def bfsLoop (edges0 : List Edge) (startN : String) (endN : Option String) :
    Nat → List String → List String → (String → Option String) →
      List Node → List Edge → List GraphState
  | 0, _, _, _, _, _ => []
  | fuel + 1, queue, visited, parent, prevNodes, prevEdges =>
    match queue with
    | [] => []
    | cur :: queueRest =>
      if cur ∈ visited then
        bfsLoop edges0 startN endN fuel queueRest visited parent
          prevNodes prevEdges
      else
        let visited' := visited ++ [cur]
        let updatedNodes := markCurrent prevNodes cur visited'
        let visitState : GraphState :=
          ⟨updatedNodes, prevEdges, queueRest, visited', some cur⟩
        let (queue', parent', edges', nbStates) :=
          neighborLoop cur updatedNodes visited'
            (neighborsOf edges0 cur) queueRest parent prevEdges
        if endReached endN cur then
          let path :=
            reconstructPath parent' startN cur
              (visited'.length + 2 * edges0.length + 2)
          let finalState : GraphState :=
            ⟨markPathNodes updatedNodes path, markPathEdges edges' path,
              queue', visited', some cur⟩
          visitState :: nbStates ++ [finalState]
        else
          visitState :: nbStates
            ++ bfsLoop edges0 startN endN fuel queue' visited' parent'
                updatedNodes edges'

/-- The `breadthFirstSearch` of `bfs.ts`. -/
def breadthFirstSearch (nodes : List Node) (edges : List Edge)
    (startN : String) (endN : Option String) : List GraphState :=
  let initialNodes := nodes.map (fun nd =>
    { nd with status := if nd.id = startN then .start else .unvisited })
  let initialEdges := edges.map (fun e => { e with status := .normal })
  ⟨initialNodes, initialEdges, [startN], [], none⟩
    :: bfsLoop edges startN endN (nodes.length + 2 * edges.length + 2)
        [startN] [] (fun _ => none) initialNodes initialEdges

end BFS

/-! ## Depth-first search (`dfs.ts`) -/

namespace DFS

open GraphBase

/-- The `GraphState` of `dfs.ts` (a stack instead of a queue). -/
structure GraphState where
  nodes   : List Node
  edges   : List Edge
  stack   : List String
  visited : List String
  current : Option String
deriving Repr, DecidableEq

/-- The neighbor loop of `dfs.ts`: push each unseen neighbor on the stack
(at the end of the list, as `Array.push` does). -/
def neighborLoop (cur : String) (updatedNodes : List Node)
    (visited : List String) :
    List String → List String → (String → Option String) → List Edge →
      List String × (String → Option String) × List Edge × List GraphState
  | [], stack, parent, edges => (stack, parent, edges, [])
  | nb :: rest, stack, parent, edges =>
    if nb ∉ visited ∧ nb ∉ stack then
      let stack' := stack ++ [nb]
      let parent' := fun x => if x = nb then some cur else parent x
      let edges' := markEdgeCurrent edges cur nb
      let st : GraphState := ⟨updatedNodes, edges', stack', visited, some cur⟩
      let (sOut, pOut, eOut, sts) :=
        neighborLoop cur updatedNodes visited rest stack' parent' edges'
      (sOut, pOut, eOut, st :: sts)
    else
      neighborLoop cur updatedNodes visited rest stack parent edges

/-- The main `while (stack.length > 0)` loop of `dfs.ts`: pop from the
*end* of the stack; the goal check happens before the neighbors are
expanded (unlike BFS), and the neighbor list is filtered against
`visited` and reversed before pushing. -/
def dfsLoop (edges0 : List Edge) (startN : String) (endN : Option String) :
    Nat → List String → List String → (String → Option String) →
      List Node → List Edge → List GraphState
  | 0, _, _, _, _, _ => []
  | fuel + 1, stack, visited, parent, prevNodes, prevEdges =>
    match stack.getLast? with
    | none => []
    | some cur =>
      let stackRest := stack.dropLast
      if cur ∈ visited then
        dfsLoop edges0 startN endN fuel stackRest visited parent
          prevNodes prevEdges
      else
        let visited' := visited ++ [cur]
        let updatedNodes := markCurrent prevNodes cur visited'
        let visitState : GraphState :=
          ⟨updatedNodes, prevEdges, stackRest, visited', some cur⟩
        if endReached endN cur then
          let path :=
            reconstructPath parent startN cur
              (visited'.length + 2 * edges0.length + 2)
          let finalState : GraphState :=
            ⟨markPathNodes updatedNodes path, markPathEdges prevEdges path,
              stackRest, visited', some cur⟩
          [visitState, finalState]
        else
          let nbs :=
            ((neighborsOf edges0 cur).filter (fun nb => nb ∉ visited')).reverse
          let (stack', parent', edges', nbStates) :=
            neighborLoop cur updatedNodes visited' nbs stackRest parent
              prevEdges
          visitState :: nbStates
            ++ dfsLoop edges0 startN endN fuel stack' visited' parent'
                updatedNodes edges'

/-- The `depthFirstSearch` of `dfs.ts`. -/
def depthFirstSearch (nodes : List Node) (edges : List Edge)
    (startN : String) (endN : Option String) : List GraphState :=
  let initialNodes := nodes.map (fun nd =>
    { nd with status := if nd.id = startN then .start else .unvisited })
  let initialEdges := edges.map (fun e => { e with status := .normal })
  ⟨initialNodes, initialEdges, [startN], [], none⟩
    :: dfsLoop edges startN endN (nodes.length + 2 * edges.length + 2)
        [startN] [] (fun _ => none) initialNodes initialEdges

end DFS

/-- Insertion-ordered map update (`Map.set`): replace in place when the
key exists, append otherwise (iteration order is insertion order). -/
def mapSet {α : Type} (m : List (String × α)) (k : String) (v : α) :
    List (String × α) :=
  if m.any (fun p => p.1 == k) then
    m.map (fun p => if p.1 = k then (k, v) else p)
  else m ++ [(k, v)]

/-- The `Map.get`: the value at the key, if present. -/
def mapGet {α : Type} (m : List (String × α)) (k : String) : Option α :=
  (m.find? (fun p => p.1 == k)).map (fun p => p.2)

/-! ## Dijkstra (`dijkstra.ts`) -/

namespace Dijkstra

open GraphBase (NodeStatus EdgeStatus)

/-- A Dijkstra node: the shared shape plus the optional displayed
distance.  `Infinity` is `⊤`. -/
structure Node where
  id       : String
  x        : ℚ
  y        : ℚ
  status   : NodeStatus
  distance : Option (WithTop ℚ)
deriving Repr, DecidableEq

/-- A Dijkstra edge (the weight is required in `dijkstra.ts`). -/
structure Edge where
  fromId : String
  toId   : String
  weight : ℚ
  status : EdgeStatus
deriving Repr, DecidableEq

/-- The `GraphState` of `dijkstra.ts`. -/
structure GraphState where
  nodes     : List Node
  edges     : List Edge
  distances : List (String × WithTop ℚ)
  visited   : List String
  current   : Option String
deriving Repr, DecidableEq

/-- The minimum-selection scan over the distance map: starting from
`('', Infinity)`, take each unvisited entry that is strictly closer than
the best so far (iteration in map insertion order). -/
def findMin (m : List (String × WithTop ℚ)) (visited : List String) :
    String × WithTop ℚ :=
  m.foldl
    (fun acc p => if p.1 ∉ visited ∧ p.2 < acc.2 then (p.1, p.2) else acc)
    ("", ⊤)

/-- The relabelling of the previous snapshot's nodes when `cur` is
visited, with every displayed distance refreshed from the map. -/
def markCurrent (nodes : List Node) (cur : String) (vis : List String)
    (dists : List (String × WithTop ℚ)) : List Node :=
  nodes.map (fun nd =>
    { nd with
        status :=
          if nd.id = cur then .current
          else if nd.id ∈ vis then .visited
          else nd.status,
        distance := mapGet dists nd.id })

/-- Refresh only the displayed distances. -/
def refreshDistances (nodes : List Node)
    (dists : List (String × WithTop ℚ)) : List Node :=
  nodes.map (fun nd => { nd with distance := mapGet dists nd.id })

/-- Highlight the edge between `cur` and the relaxed neighbor. -/
def markEdgeCurrent (edges : List Edge) (cur nb : String) : List Edge :=
  edges.map (fun e =>
    if (e.fromId = cur ∧ e.toId = nb) ∨ (e.toId = cur ∧ e.fromId = nb) then
      { e with status := .current }
    else e)

/-- Path highlighting on nodes, with distances refreshed. -/
def markPathNodes (nodes : List Node) (path : List String)
    (dists : List (String × WithTop ℚ)) : List Node :=
  nodes.map (fun nd =>
    { nd with
        status := if nd.id ∈ path then .path else nd.status,
        distance := mapGet dists nd.id })

/-- Path highlighting on edges. -/
def markPathEdges (edges : List Edge) (path : List String) : List Edge :=
  edges.map (fun e =>
    if e.fromId ∈ path ∧ e.toId ∈ path then { e with status := .path }
    else e)

/-- The `edges.filter(...).map(...)`: neighbors of `cur` with edge weights. -/
def neighborsOf (edges : List Edge) (cur : String) : List (String × ℚ) :=
  (edges.filter (fun e => e.fromId == cur || e.toId == cur)).map
    (fun e => (if e.fromId = cur then e.toId else e.fromId, e.weight))

/-- The relaxation loop over the neighbors of `cur`.  A neighbor missing
from the distance map is never relaxed, because in JavaScript
`newDistance < undefined` is false.  Returns the final distance map,
parent map, edge list and the pushed states. -/
def relaxLoop (cur : String) (updatedNodes : List Node)
    (visited : List String) :
    List (String × ℚ) → List (String × WithTop ℚ) →
      (String → Option String) → List Edge →
      List (String × WithTop ℚ) × (String → Option String) × List Edge ×
        List GraphState
  | [], dists, parent, edges => (dists, parent, edges, [])
  | (nb, w) :: rest, dists, parent, edges =>
    if nb ∉ visited then
      let newDistance := (mapGet dists cur).getD ⊤ + (w : WithTop ℚ)
      match mapGet dists nb with
      | some dnb =>
        if newDistance < dnb then
          let dists' := mapSet dists nb newDistance
          let parent' := fun x => if x = nb then some cur else parent x
          let edges' := markEdgeCurrent edges cur nb
          let st : GraphState :=
            ⟨refreshDistances updatedNodes dists', edges', dists',
              visited, some cur⟩
          let (dOut, pOut, eOut, sts) :=
            relaxLoop cur updatedNodes visited rest dists' parent' edges'
          (dOut, pOut, eOut, st :: sts)
        else relaxLoop cur updatedNodes visited rest dists parent edges
      | none => relaxLoop cur updatedNodes visited rest dists parent edges
    else relaxLoop cur updatedNodes visited rest dists parent edges

/-- The main `while (visited.size < nodes.length)` loop.  Every
non-breaking iteration visits one more distinct map key, so the map size
bounds the iterations; the fuel in `dijkstra` covers that. -/
def dijkstraLoop (edges0 : List Edge) (nodeCount : Nat) (startN : String)
    (endN : Option String) :
    Nat → List (String × WithTop ℚ) → List String →
      (String → Option String) → List Node → List Edge → List GraphState
  | 0, _, _, _, _, _ => []
  | fuel + 1, dists, visited, parent, prevNodes, prevEdges =>
    if visited.length < nodeCount then
      let (cur, minDistance) := findMin dists visited
      if cur = "" ∨ minDistance = ⊤ then []
      else
        let visited' := visited ++ [cur]
        let updatedNodes := markCurrent prevNodes cur visited' dists
        let visitState : GraphState :=
          ⟨updatedNodes, prevEdges, dists, visited', some cur⟩
        let (dists', parent', edges', relaxStates) :=
          relaxLoop cur updatedNodes visited'
            (neighborsOf edges0 cur) dists parent prevEdges
        if endReached endN cur then
          let path :=
            reconstructPath parent' startN cur
              (visited'.length + 2 * edges0.length + 2)
          let finalState : GraphState :=
            ⟨markPathNodes updatedNodes path dists',
              markPathEdges edges' path, dists', visited', some cur⟩
          visitState :: relaxStates ++ [finalState]
        else
          visitState :: relaxStates
            ++ dijkstraLoop edges0 nodeCount startN endN fuel dists'
                visited' parent' updatedNodes edges'
    else []

/-- The `dijkstra` of `dijkstra.ts`. -/
def dijkstra (nodes : List Node) (edges : List Edge) (startN : String)
    (endN : Option String) : List GraphState :=
  let dists0 := nodes.foldl
    (fun m nd => mapSet m nd.id (if nd.id = startN then 0 else ⊤)) []
  let initialNodes := nodes.map (fun nd =>
    { nd with
        status := if nd.id = startN then .start else .unvisited,
        distance := mapGet dists0 nd.id })
  let initialEdges := edges.map (fun e => { e with status := .normal })
  ⟨initialNodes, initialEdges, dists0, [], none⟩
    :: dijkstraLoop edges nodes.length startN endN (nodes.length + 1)
        dists0 [] (fun _ => none) initialNodes initialEdges

end Dijkstra

/-! ## Tricolor traversal (`tricolor-algorithm.ts`) -/

namespace Tricolor

open GraphBase (EdgeStatus)

/-- The tricolor node statuses (the shared six plus the three colors). -/
inductive NodeStatus
  | unvisited
  | visited
  | current
  | path
  | start
  | endp
  | white
  | gray
  | black
deriving Repr, DecidableEq

/-- The tricolor marking. -/
inductive Color
  | white
  | gray
  | black
deriving Repr, DecidableEq

/-- A tricolor node. -/
structure Node where
  id     : String
  x      : ℚ
  y      : ℚ
  status : NodeStatus
  color  : Color
deriving Repr, DecidableEq

/-- A tricolor edge (optional weight). -/
structure Edge where
  fromId : String
  toId   : String
  weight : Option ℚ
  status : EdgeStatus
deriving Repr, DecidableEq

/-- The `GraphState` of `tricolor-algorithm.ts`; `path` is only present on the
final state. -/
structure GraphState where
  nodes      : List Node
  edges      : List Edge
  whiteNodes : List String
  grayNodes  : List String
  blackNodes : List String
  current    : Option String
  stack      : List String
  path       : Option (List String)
deriving Repr, DecidableEq

/-- Neighbor ids of `cur` (input edge list). -/
def neighborsOf (edges : List Edge) (cur : String) : List String :=
  (edges.filter (fun e => e.fromId == cur || e.toId == cur)).map
    (fun e => if e.fromId = cur then e.toId else e.fromId)

/-- The status/color relabelling pushed when `cur` turns gray or black
(`curStatus` is `gray` or `black`). -/
def recolor (nodes : List Node) (cur : String) (curStatus : NodeStatus)
    (startN : String) (endN : Option String)
    (gray black : List String) : List Node :=
  nodes.map (fun nd =>
    { nd with
        status :=
          if nd.id = cur then curStatus
          else if nd.id = startN then .start
          else if some nd.id = endN then .endp
          else if nd.id ∈ gray then .gray
          else if nd.id ∈ black then .black
          else .white,
        color :=
          if nd.id ∈ gray then .gray
          else if nd.id ∈ black then .black
          else .white })

/-- Edge highlighting for the explored edge. -/
def markEdgeCurrent (edges : List Edge) (cur nb : String) : List Edge :=
  edges.map (fun e =>
    if (e.fromId = cur ∧ e.toId = nb) ∨ (e.toId = cur ∧ e.fromId = nb) then
      { e with status := .current }
    else e)

/-- Path highlighting. -/
def markPathNodes (nodes : List Node) (path : List String) : List Node :=
  nodes.map (fun nd =>
    if nd.id ∈ path then { nd with status := .path } else nd)

/-- Path highlighting on edges. -/
def markPathEdges (edges : List Edge) (path : List String) : List Edge :=
  edges.map (fun e =>
    if e.fromId ∈ path ∧ e.toId ∈ path then { e with status := .path }
    else e)

/-- The main `while (stack.length > 0)` loop of the tricolor traversal:
peek the top of the stack, gray a white node, push its first white
neighbor, or blacken and pop.  Each node turns white → gray → black at
most once, which bounds the iterations; the fuel in `tricolorAlgorithm`
covers that. -/
def tricolorLoop (edges0 : List Edge) (startN : String)
    (endN : Option String) :
    Nat → List String → List String → List String → List String →
      (String → Option String) → List Node → List Edge → List GraphState
  | 0, _, _, _, _, _, _, _ => []
  | fuel + 1, stack, white, gray, black, parent, prevNodes, prevEdges =>
    match stack.getLast? with
    | none => []
    | some cur =>
      if cur ∈ black then
        tricolorLoop edges0 startN endN fuel stack.dropLast white gray
          black parent prevNodes prevEdges
      else
        let (white', gray', grayStates, nodes1) :=
          if cur ∈ white then
            let w := white.erase cur
            let g := gray ++ [cur]
            let nodes' := recolor prevNodes cur .gray startN endN g black
            (w, g,
              [(⟨nodes', prevEdges, w, g, black, some cur, stack, none⟩ :
                GraphState)],
              nodes')
          else (white, gray, [], prevNodes)
        let nbs := (neighborsOf edges0 cur).filter (fun nb => nb ∈ white')
        match nbs with
        | nextNeighbor :: _ =>
          let stack' := stack ++ [nextNeighbor]
          let parent' :=
            fun x => if x = nextNeighbor then some cur else parent x
          let edges' := markEdgeCurrent prevEdges cur nextNeighbor
          let pushState : GraphState :=
            ⟨nodes1, edges', white', gray', black, some cur, stack', none⟩
          grayStates ++ pushState
            :: tricolorLoop edges0 startN endN fuel stack' white' gray'
                black parent' nodes1 edges'
        | [] =>
          let gray'' := gray'.erase cur
          let black' := black ++ [cur]
          let stack' := stack.dropLast
          let nodes2 := recolor nodes1 cur .black startN endN gray'' black'
          let blackState : GraphState :=
            ⟨nodes2, prevEdges, white', gray'', black', none, stack', none⟩
          if endReached endN cur then
            let path :=
              reconstructPath parent startN cur
                (white'.length + gray''.length + black'.length +
                  2 * edges0.length + 2)
            let finalState : GraphState :=
              ⟨markPathNodes nodes2 path, markPathEdges prevEdges path,
                white', gray'', black', none, stack', some path⟩
            grayStates ++ [blackState, finalState]
          else
            grayStates ++ blackState
              :: tricolorLoop edges0 startN endN fuel stack' white' gray''
                  black' parent nodes2 prevEdges

/-- The `tricolorAlgorithm` of `tricolor-algorithm.ts`. -/
def tricolorAlgorithm (nodes : List Node) (edges : List Edge)
    (startN : String) (endN : Option String) : List GraphState :=
  let whiteNodes := (nodes.map (fun nd => nd.id)).foldl
    (fun acc i => if i ∈ acc then acc else acc ++ [i]) []
  let initialNodes := nodes.map (fun nd =>
    { nd with
        status :=
          if nd.id = startN then .start
          else if some nd.id = endN then .endp
          else .white,
        color := .white })
  let initialEdges := edges.map (fun e => { e with status := .normal })
  ⟨initialNodes, initialEdges, whiteNodes, [], [], none, [startN], none⟩
    :: tricolorLoop edges startN endN
        (3 * nodes.length + 2 * edges.length + 3) [startN] whiteNodes []
        [] (fun _ => none) initialNodes initialEdges

end Tricolor

/-! ## A* (`a-star.ts`)

`Math.sqrt` is the one operation of the generator that leaves the
rationals, so the whole generator is parametrized by the square-root
function `sqrtFn` used by the heuristic; every property proved below holds
for all of its values. -/

namespace AStar

open GraphBase (EdgeStatus)

/-- The A* node statuses (the shared six plus `open`/`closed`; `open` is a
Lean keyword, hence `opened`). -/
inductive NodeStatus
  | unvisited
  | visited
  | current
  | path
  | start
  | endp
  | opened
  | closed
deriving Repr, DecidableEq

/-- An A* node: shared shape plus the displayed `g`, `h`, `f` costs and
the optional parent pointer.  `g` and `f` start at `Infinity`. -/
structure Node where
  id     : String
  x      : ℚ
  y      : ℚ
  status : NodeStatus
  g      : WithTop ℚ
  h      : ℚ
  f      : WithTop ℚ
  parent : Option String
deriving Repr, DecidableEq

/-- An A* edge (required weight). -/
structure Edge where
  fromId : String
  toId   : String
  weight : ℚ
  status : EdgeStatus
deriving Repr, DecidableEq

/-- The `GraphState` of `a-star.ts`. -/
structure GraphState where
  nodes     : List Node
  edges     : List Edge
  openSet   : List String
  closedSet : List String
  current   : Option String
  path      : List String
deriving Repr, DecidableEq

/-- The `score || 0`: JavaScript keeps a truthy number (including `Infinity`)
and turns `undefined` or `0` into `0`. -/
def jsOrZero (o : Option (WithTop ℚ)) : WithTop ℚ :=
  match o with
  | none => 0
  | some v => if v = 0 then 0 else v

/-- The `score || Infinity`: `undefined` and the falsy `0` become `Infinity`. -/
def jsOrTop (o : Option (WithTop ℚ)) : WithTop ℚ :=
  match o with
  | none => ⊤
  | some v => if v = 0 then ⊤ else v

/-- The `heuristic` function: straight-line distance between the two
nodes' coordinates (0 when either id is missing), with `Math.sqrt`
supplied as `sqrtFn`. -/
def heuristic (sqrtFn : ℚ → ℚ) (nodes : List Node) (src dst : String) : ℚ :=
  match nodes.find? (fun n => n.id == src), nodes.find? (fun n => n.id == dst) with
  | some a, some b => sqrtFn ((a.x - b.x) * (a.x - b.x) + (a.y - b.y) * (a.y - b.y))
  | _, _ => 0

/-- The lowest-`f` scan over the open set (`for (let i = 1; ...)`),
returning the selected id and its index for the `splice`. -/
def lowestF (fS : List (String × WithTop ℚ)) (c0 : String)
    (rest : List String) : String × Nat :=
  (rest.enum.foldl
    (fun acc p =>
      let fCurrent := jsOrTop (mapGet fS acc.1)
      let fCandidate := jsOrTop (mapGet fS p.2)
      if fCandidate < fCurrent then (p.2, p.1 + 1) else acc)
    (c0, 0))

/-- Neighbor ids of `cur`. -/
def neighborsOf (edges : List Edge) (cur : String) : List String :=
  (edges.filter (fun e => e.fromId == cur || e.toId == cur)).map
    (fun e => if e.fromId = cur then e.toId else e.fromId)

/-- The node relabelling pushed when `cur` is expanded. -/
def markCurrent (sqrtFn : ℚ → ℚ) (nodes0 : List Node) (nodes : List Node)
    (cur startN endN : String) (opens closeds : List String)
    (gS fS : List (String × WithTop ℚ)) : List Node :=
  nodes.map (fun nd =>
    { nd with
        status :=
          if nd.id = cur then .current
          else if nd.id = startN then .start
          else if nd.id = endN then .endp
          else if nd.id ∈ closeds then .closed
          else if nd.id ∈ opens then .opened
          else .unvisited,
        g := jsOrZero (mapGet gS nd.id),
        h := heuristic sqrtFn nodes0 nd.id endN,
        f := jsOrZero (mapGet fS nd.id) })

/-- Edge highlighting for the evaluated edge. -/
def markEdgeCurrent (edges : List Edge) (cur nb : String) : List Edge :=
  edges.map (fun e =>
    if (e.fromId = cur ∧ e.toId = nb) ∨ (e.toId = cur ∧ e.fromId = nb) then
      { e with status := .current }
    else e)

/-- Path highlighting. -/
def markPathNodes (nodes : List Node) (path : List String) : List Node :=
  nodes.map (fun nd =>
    if nd.id ∈ path then { nd with status := .path } else nd)

/-- Path highlighting on edges. -/
def markPathEdges (edges : List Edge) (path : List String) : List Edge :=
  edges.map (fun e =>
    if e.fromId ∈ path ∧ e.toId ∈ path then { e with status := .path }
    else e)

/-- The `for (const neighbor of neighbors)` evaluation loop of `a-star.ts`:
skip closed neighbors and neighbors without a connecting edge, push new
neighbors into the open set, skip non-improving tentative scores, and
otherwise record parent and scores and push a state. -/
def evalLoop (sqrtFn : ℚ → ℚ) (nodes0 : List Node) (edges0 : List Edge)
    (cur startN endN : String) (updatedNodes : List Node)
    (closeds : List String) :
    List String → List String → List (String × WithTop ℚ) →
      List (String × WithTop ℚ) → (String → Option String) → List Edge →
      List String × List (String × WithTop ℚ) × List (String × WithTop ℚ) ×
        (String → Option String) × List Edge × List GraphState
  | [], opens, gS, fS, parent, edges => (opens, gS, fS, parent, edges, [])
  | nb :: rest, opens, gS, fS, parent, edges =>
    if nb ∈ closeds then
      evalLoop sqrtFn nodes0 edges0 cur startN endN updatedNodes closeds
        rest opens gS fS parent edges
    else
      match edges0.find? (fun e =>
          (e.fromId == cur && e.toId == nb) ||
          (e.toId == cur && e.fromId == nb)) with
      | none =>
        evalLoop sqrtFn nodes0 edges0 cur startN endN updatedNodes closeds
          rest opens gS fS parent edges
      | some edge =>
        let tentative := jsOrZero (mapGet gS cur) + (edge.weight : WithTop ℚ)
        let (opens', proceed) :=
          if nb ∉ opens then (opens ++ [nb], true)
          else if tentative ≥ jsOrTop (mapGet gS nb) then (opens, false)
          else (opens, true)
        if proceed then
          let parent' := fun x => if x = nb then some cur else parent x
          let gS' := mapSet gS nb tentative
          let fS' := mapSet fS nb
            (tentative + (heuristic sqrtFn nodes0 nb endN : WithTop ℚ))
          let edges' := markEdgeCurrent edges cur nb
          let nbNodes := updatedNodes.map (fun nd =>
            { nd with
                status := if nd.id = nb then .opened else nd.status,
                g := jsOrZero (mapGet gS' nd.id),
                h := heuristic sqrtFn nodes0 nd.id endN,
                f := jsOrZero (mapGet fS' nd.id) })
          let st : GraphState :=
            ⟨nbNodes, edges', opens', closeds, some cur, []⟩
          let (oOut, gOut, fOut, pOut, eOut, sts) :=
            evalLoop sqrtFn nodes0 edges0 cur startN endN updatedNodes
              closeds rest opens' gS' fS' parent' edges'
          (oOut, gOut, fOut, pOut, eOut, st :: sts)
        else
          evalLoop sqrtFn nodes0 edges0 cur startN endN updatedNodes
            closeds rest opens' gS fS parent edges

/-- The main `while (openSet.length > 0)` loop of `a-star.ts`.  Each
iteration moves one id into the closed set and ids never leave it, so the
iteration count is bounded by the fuel chosen in `aStar`. -/
def aStarLoop (sqrtFn : ℚ → ℚ) (nodes0 : List Node) (edges0 : List Edge)
    (startN endN : String) :
    Nat → List String → List String → List (String × WithTop ℚ) →
      List (String × WithTop ℚ) → (String → Option String) →
      List Node → List Edge → List GraphState
  | 0, _, _, _, _, _, _, _ => []
  | fuel + 1, opens, closeds, gS, fS, parent, prevNodes, prevEdges =>
    match opens with
    | [] => []
    | c0 :: rest =>
      let (cur, curIndex) := lowestF fS c0 rest
      let opens' := (c0 :: rest).eraseIdx curIndex
      let closeds' := closeds ++ [cur]
      let updatedNodes :=
        markCurrent sqrtFn nodes0 prevNodes cur startN endN opens' closeds'
          gS fS
      let visitState : GraphState :=
        ⟨updatedNodes, prevEdges, opens', closeds', some cur, []⟩
      if cur = endN then
        let path :=
          reconstructPath parent startN cur
            (closeds'.length + 2 * edges0.length + 2)
        let finalState : GraphState :=
          ⟨markPathNodes updatedNodes path, markPathEdges prevEdges path,
            opens', closeds', some cur, path⟩
        [visitState, finalState]
      else
        let (opens'', gS', fS', parent', edges', evalStates) :=
          evalLoop sqrtFn nodes0 edges0 cur startN endN updatedNodes
            closeds' (neighborsOf edges0 cur) opens' gS fS parent prevEdges
        visitState :: evalStates
          ++ aStarLoop sqrtFn nodes0 edges0 startN endN fuel opens''
              closeds' gS' fS' parent' updatedNodes edges'

/-- The `aStar` of `a-star.ts`. -/
def aStar (sqrtFn : ℚ → ℚ) (nodes : List Node) (edges : List Edge)
    (startN endN : String) : List GraphState :=
  let gS0 := mapSet (nodes.foldl (fun m nd => mapSet m nd.id ⊤) []) startN 0
  let fS0 := mapSet (nodes.foldl (fun m nd => mapSet m nd.id ⊤) []) startN
    (heuristic sqrtFn nodes startN endN : WithTop ℚ)
  let initialNodes := nodes.map (fun nd =>
    { nd with
        status :=
          if nd.id = startN then .start
          else if nd.id = endN then .endp
          else .unvisited,
        g := jsOrZero (mapGet gS0 nd.id),
        h := heuristic sqrtFn nodes nd.id endN,
        f := jsOrZero (mapGet fS0 nd.id) })
  let initialEdges := edges.map (fun e => { e with status := .normal })
  ⟨initialNodes, initialEdges, [startN], [], none, []⟩
    :: aStarLoop sqrtFn nodes edges startN endN
        (nodes.length + 2 * edges.length + 2) [startN] [] gS0 fS0
        (fun _ => none) initialNodes initialEdges

end AStar

/-! ## Algorithm service and trace store (`algorithmService.ts`, `store.ts`) -/

namespace Store

/-- The `states: any[]` field of the zustand store: whichever generator
ran last determines the element shape, so the store's contents are a sum
over the generators' state lists (`empty` is the untyped `[]`). -/
inductive StatesVal
  | empty
  | bubble (l : List BubbleSort.BarState)
  | insertion (l : List InsertionSort.BarState)
  | merge (l : List MergeSort.BarState)
  | quick (l : List QuickSort.BarState)
  | linear (l : List LinearSearch.BarState)
  | hash (l : List HashTable.HashTableState)
  | bfs (l : List BFS.GraphState)
  | dfs (l : List DFS.GraphState)
  | dijkstra (l : List Dijkstra.GraphState)

/-- The `AlgorithmService.getDefaultSortingData()`. -/
def defaultSortingData : List ℚ := [64, 34, 25, 12, 22, 11, 90, 45, 78, 33]

/-- The `AlgorithmService.getDefaultGraphData().nodes`. -/
def defaultGraphNodes : List GraphBase.Node :=
  [⟨"A", 100, 100, .unvisited⟩, ⟨"B", 200, 150, .unvisited⟩,
   ⟨"C", 300, 100, .unvisited⟩, ⟨"D", 150, 200, .unvisited⟩,
   ⟨"E", 250, 200, .unvisited⟩, ⟨"F", 350, 150, .unvisited⟩]

/-- The `AlgorithmService.getDefaultGraphData().edges`. -/
def defaultGraphEdges : List GraphBase.Edge :=
  [⟨"A", "B", some 4, .normal⟩, ⟨"A", "D", some 2, .normal⟩,
   ⟨"B", "C", some 3, .normal⟩, ⟨"B", "E", some 5, .normal⟩,
   ⟨"C", "F", some 1, .normal⟩, ⟨"D", "E", some 6, .normal⟩,
   ⟨"E", "F", some 2, .normal⟩]

/-- The `AlgorithmService.generateSortingStates`: route the id to its
generator; `linear-search` targets the middle element and
`hash-table-search` pairs the fixed fruit keys with the first seven
values. -/
def generateSortingStates (algorithmId : String) (values : List ℚ) :
    StatesVal :=
  if algorithmId = "bubble-sort" then
    .bubble (BubbleSort.bubbleSort values)
  else if algorithmId = "insertion-sort" then
    .insertion (InsertionSort.insertionSort values)
  else if algorithmId = "merge-sort" then
    .merge (MergeSort.mergeSort values)
  else if algorithmId = "quick-sort" then
    .quick (QuickSort.quickSort values)
  else if algorithmId = "linear-search" then
    .linear (LinearSearch.linearSearch values
      (values.getD (values.length / 2) 0))
  else if algorithmId = "hash-table-search" then
    .hash (HashTable.hashTableSearch
      ["apple", "banana", "cherry", "date", "elderberry", "fig", "grape"]
      (values.take 7) "cherry")
  else .empty

/-- Structural typing lets the service pass the plain default nodes into
`dijkstra`; the missing `distance` is `undefined`. -/
def toDijkstraNode (nd : GraphBase.Node) : Dijkstra.Node :=
  ⟨nd.id, nd.x, nd.y, nd.status, none⟩

/-- The default edges all carry weights; `dijkstra`'s required `weight`
reads them directly. -/
def toDijkstraEdge (e : GraphBase.Edge) : Dijkstra.Edge :=
  ⟨e.fromId, e.toId, e.weight.getD 0, e.status⟩

/-- The `AlgorithmService.generateGraphStates` (no `a-star` case: unknown ids
fall through to `[]`). -/
def generateGraphStates (algorithmId : String)
    (nodes : List GraphBase.Node) (edges : List GraphBase.Edge)
    (startN : String) (endN : Option String) : StatesVal :=
  if algorithmId = "breadth-first-search" then
    .bfs (BFS.breadthFirstSearch nodes edges startN endN)
  else if algorithmId = "depth-first-search" then
    .dfs (DFS.depthFirstSearch nodes edges startN endN)
  else if algorithmId = "dijkstra" then
    .dijkstra (Dijkstra.dijkstra (nodes.map toDijkstraNode)
      (edges.map toDijkstraEdge) startN endN)
  else .empty

/-- The zustand store's state. -/
structure StoreState where
  code             : String
  states           : StatesVal
  currentAlgorithm : Option String

/-- The store's initial state. -/
def initialStore : StoreState := ⟨"", .empty, none⟩

/-- The `runAlgorithm` (a placeholder in the source: it clears the states). -/
def runAlgorithm (_code : String) (s : StoreState) : StoreState :=
  { s with states := .empty }

/-- The `setCode`. -/
def setCode (code : String) (s : StoreState) : StoreState :=
  { s with code := code }

/-- The `setAlgorithm`. -/
def setAlgorithm (algorithmId : String) (s : StoreState) : StoreState :=
  { s with currentAlgorithm := some algorithmId }

/-- The sorting-route ids of `generateStates`. -/
def sortingIds : List String :=
  ["bubble-sort", "insertion-sort", "merge-sort", "quick-sort",
   "linear-search", "hash-table-search"]

/-- The graph-route ids of `generateStates`. -/
def graphIds : List String :=
  ["breadth-first-search", "depth-first-search", "dijkstra", "a-star"]

/-- The `generateStates` of `store.ts`: an early return when the id equals the
current algorithm (the memoization guard), otherwise route to the service
with the default data and replace `states` and `currentAlgorithm`. -/
def generateStates (algorithmId : String) (s : StoreState) : StoreState :=
  if some algorithmId = s.currentAlgorithm then s
  else
    let states :=
      if algorithmId ∈ sortingIds then
        generateSortingStates algorithmId defaultSortingData
      else if algorithmId ∈ graphIds then
        generateGraphStates algorithmId defaultGraphNodes defaultGraphEdges
          "A" (some "F")
      else .empty
    { s with states := states, currentAlgorithm := some algorithmId }

end Store

/-! ## Export progress reporting (`gifExporter.tsx`, `ffmpegService.ts`) -/

namespace Export

/-- The stages of `GifExportProgress`. -/
inductive Stage
  | loading
  | processing
  | encoding
  | complete
  | error
deriving Repr, DecidableEq

/-- One `GifExportProgress` event delivered to `setProgress`. -/
structure ProgressEvent where
  progress : ℚ
  stage    : Stage
  message  : String
deriving Repr, DecidableEq

/-- The events the frame-capture loop of `handleExport` emits: after frame
`i` of `n` it reports `10 + (i / n) * 20`. -/
def captureEvents (n : Nat) : List ProgressEvent :=
  (List.range n).map (fun (i : Nat) =>
    ⟨10 + (((i : ℚ)) / ((n : ℚ))) * 20, .processing,
      s!"Captured {i + 1}/{n} frames"⟩)

/-- The events `FFmpegService.generateGifSimple` emits on a successful
run: preparation at 0, encoding at 20, completion at 100. -/
def generateGifSimpleEvents : List ProgressEvent :=
  [⟨0, .processing, "Preparing frames..."⟩,
   ⟨20, .encoding, "Encoding GIF..."⟩,
   ⟨100, .complete, "GIF created successfully!"⟩]

/-- The full progress-event sequence of one successful export of an
`n`-state trace through `handleExport` (every frame captures and the
encoder succeeds): the loading and capture-start events, the per-frame
events, then the `generateGifSimple` events. -/
def handleExportEvents (n : Nat) : List ProgressEvent :=
  ⟨0, .loading, "Loading FFmpeg..."⟩
    :: ⟨10, .processing, "Capturing frames..."⟩
    :: (captureEvents n ++ generateGifSimpleEvents)

/-- Monotonicity of a reported progress sequence: every event's
percentage is at least its predecessor's. -/
def ProgressMonotone (evs : List ProgressEvent) : Prop :=
  evs.Chain' (fun a b => a.progress ≤ b.progress)

end Export

/-! ## Supporting lemmas -/

/-- The `hash` lands strictly below the table size. -/
theorem HashTable.hashString_lt_tableSize (key : String) :
    HashTable.hashString key < HashTable.tableSize :=
  Nat.mod_lt _ (by decide)

/-- Inserting never changes the bucket count. -/
theorem HashTable.bucketsInsert_length (b : List HashTable.Bucket)
    (k : String) (v : Option ℚ) :
    (HashTable.bucketsInsert b k v).length = b.length := by
  simp [HashTable.bucketsInsert]

/-- The bucket count survives any run of the insertion fold. -/
theorem HashTable.foldl_insert_length (keys : List String)
    (values : List ℚ) :
    ∀ (l : List Nat) (b : List HashTable.Bucket),
      (l.foldl (fun buckets i =>
        HashTable.bucketsInsert buckets (keys.getD i "") values[i]?) b).length
        = b.length := by
  intro l
  induction l with
  | nil => intro b; rfl
  | cons x xs ih =>
    intro b
    simp only [List.foldl_cons]
    rw [ih, HashTable.bucketsInsert_length]

/-- The built table always has exactly `tableSize` buckets. -/
theorem HashTable.buildBuckets_length (keys : List String)
    (values : List ℚ) :
    (HashTable.buildBuckets keys values).length = HashTable.tableSize := by
  unfold HashTable.buildBuckets
  rw [HashTable.foldl_insert_length keys values]
  exact List.length_replicate _ _

/-- Appending one element to the `i`-th block permutes the flattening by
one appended element. -/
theorem flatten_set_append_perm {α : Type} (b : List (List α)) (i : Nat)
    (x : α) (h : i < b.length) :
    ((b.set i (b.getD i [] ++ [x])).flatten).Perm (b.flatten ++ [x]) := by
  induction b generalizing i with
  | nil => simp at h
  | cons c rest ih =>
    cases i with
    | zero =>
      simp only [List.getD_cons_zero, List.set_cons_zero, List.flatten_cons,
        List.append_assoc]
      exact (@List.perm_append_comm _ [x] rest.flatten).append_left c
    | succ j =>
      simp only [List.getD_cons_succ, List.set_cons_succ, List.flatten_cons,
        List.append_assoc]
      exact ((ih j (by simpa using h)).append_left c).trans
        (by simp [List.append_assoc])

/-- The pairs the insertion loop feeds into the table, in loop order. -/
def HashTable.pairList (keys : List String) (values : List ℚ) :
    List (String × Option ℚ) :=
  (List.range keys.length).map (fun i => (keys.getD i "", values[i]?))

/-- The insertion fold expressed over the pair sequence. -/
def HashTable.insertPairs (ps : List (String × Option ℚ))
    (b : List HashTable.Bucket) : List HashTable.Bucket :=
  ps.foldl (fun buckets p => HashTable.bucketsInsert buckets p.1 p.2) b

/-- The `buildBuckets` is the pair-sequence fold. -/
theorem HashTable.buildBuckets_eq_insertPairs (keys : List String)
    (values : List ℚ) :
    HashTable.buildBuckets keys values =
      HashTable.insertPairs (HashTable.pairList keys values)
        (List.replicate HashTable.tableSize []) := by
  simp [HashTable.buildBuckets, HashTable.insertPairs, HashTable.pairList,
    List.foldl_map]

/-- The table's contents after the insertion fold are a permutation of the
starting contents plus one node per inserted pair. -/
theorem HashTable.insertPairs_flatten_perm
    (ps : List (String × Option ℚ)) :
    ∀ b : List HashTable.Bucket, b.length = HashTable.tableSize →
      ((HashTable.insertPairs ps b).flatten).Perm
        (b.flatten ++ ps.map (fun p => HashTable.HashNode.mk p.1 p.2)) := by
  induction ps with
  | nil => intro b _; simp [HashTable.insertPairs]
  | cons p ps ih =>
    intro b hb
    have hlen : (HashTable.bucketsInsert b p.1 p.2).length =
        HashTable.tableSize := by
      simp [HashTable.bucketsInsert_length, hb]
    have h1 := ih (HashTable.bucketsInsert b p.1 p.2) hlen
    have h2 : ((HashTable.bucketsInsert b p.1 p.2).flatten).Perm
        (b.flatten ++ [HashTable.HashNode.mk p.1 p.2]) := by
      unfold HashTable.bucketsInsert
      exact flatten_set_append_perm b _ _
        (by rw [hb]; exact HashTable.hashString_lt_tableSize p.1)
    rw [List.map_cons, List.append_cons]
    exact h1.trans (h2.append_right _)

/-- With equal key/value counts, the loop's pair sequence is exactly the
zipped input. -/
theorem HashTable.pairList_eq_zip :
    ∀ (keys : List String) (values : List ℚ),
      keys.length = values.length →
      HashTable.pairList keys values =
        (keys.zip values).map (fun p => (p.1, some p.2)) := by
  intro keys
  induction keys with
  | nil => intro values _; simp [HashTable.pairList]
  | cons k ks ih =>
    intro values h
    cases values with
    | nil => simp at h
    | cons v vs =>
      have hlen : ks.length = vs.length := by simpa using h
      have htail := ih vs hlen
      unfold HashTable.pairList at htail ⊢
      rw [List.length_cons, List.range_succ_eq_map, List.map_cons,
        List.map_map]
      simp only [Function.comp_def, List.getD_cons_succ,
        List.getElem?_cons_succ, List.getD_cons_zero,
        List.getElem?_cons_zero]
      rw [htail]
      simp [List.zip_cons_cons]

/-- The chain walk always emits at least one state. -/
theorem HashTable.chainWalk_ne_nil (b : List HashTable.Bucket)
    (sk : String) (hv : Nat) :
    ∀ (chain : List HashTable.HashNode) (idx : Nat),
      HashTable.chainWalk b sk hv chain idx ≠ [] := by
  intro chain idx
  match chain with
  | [] => simp [HashTable.chainWalk]
  | node :: rest =>
    unfold HashTable.chainWalk
    split <;> (try split) <;> simp

/-- Every state the chain walk emits carries the search key's hash in
`hashValue`. -/
theorem HashTable.chainWalk_hashValue (b : List HashTable.Bucket)
    (sk : String) (hv : Nat) :
    ∀ (chain : List HashTable.HashNode) (idx : Nat),
      ∀ s ∈ HashTable.chainWalk b sk hv chain idx,
        s.hashValue = (hv : Int) := by
  intro chain
  induction chain with
  | nil => intro idx s hs; simp [HashTable.chainWalk] at hs; simp [hs]
  | cons node rest ih =>
    intro idx s hs
    unfold HashTable.chainWalk at hs
    split at hs
    · simp only [List.mem_cons, List.not_mem_nil, or_false] at hs
      rcases hs with rfl | rfl <;> rfl
    · match rest with
      | [] =>
        simp only [List.mem_cons, List.not_mem_nil, or_false] at hs
        rcases hs with rfl | rfl <;> rfl
      | next :: rest' =>
        simp only [List.mem_cons] at hs
        rcases hs with rfl | rfl | h
        · rfl
        · rfl
        · exact ih (idx + 1) s h

/-- One playback operation keeps an in-bounds cursor in bounds (for a
non-empty trace). -/
theorem Playback.applyOp_inBounds (n : Nat) (hn : 1 ≤ n)
    (s : Playback.PlaybackState) (h : Playback.InBounds n s)
    (op : Playback.Op) : Playback.InBounds n (Playback.applyOp n s op) := by
  obtain ⟨h0, h1⟩ := h
  have hn' : (1 : Int) ≤ (n : Int) := by exact_mod_cast hn
  cases op <;>
    simp only [Playback.applyOp, Playback.playAnimation,
      Playback.pauseAnimation, Playback.resetAnimation, Playback.nextStep,
      Playback.prevStep, Playback.tick, Playback.InBounds] <;>
    (try split_ifs) <;> (try simp_all) <;> omega

/-- The playback invariant extends over any operation sequence. -/
theorem Playback.applyOps_inBounds (n : Nat) (hn : 1 ≤ n)
    (ops : List Playback.Op) :
    ∀ s : Playback.PlaybackState, Playback.InBounds n s →
      Playback.InBounds n (Playback.applyOps n s ops) := by
  induction ops with
  | nil => intro s h; exact h
  | cons op ops ih =>
    intro s h
    exact ih _ (Playback.applyOp_inBounds n hn s h op)

/-- Adjacent frame-capture events never decrease. -/
theorem Export.captureEvents_chain (n : Nat) :
    Export.ProgressMonotone (Export.captureEvents n) := by
  unfold Export.ProgressMonotone Export.captureEvents
  rw [List.chain'_map]
  rcases n with _ | m
  · simp
  · rw [List.chain'_range_succ]
    intro i _
    simp only
    have hpos : (0 : ℚ) < ((m : ℚ) + 1) := by positivity
    have hcast : (((m + 1 : Nat)) : ℚ) = (m : ℚ) + 1 := by push_cast; ring
    rw [hcast]
    gcongr
    linarith

/-- Every frame-capture event reports at least 10 percent. -/
theorem Export.captureEvents_ge_ten (n : Nat) :
    ∀ ev ∈ Export.captureEvents n, 10 ≤ ev.progress := by
  intro ev hev
  unfold Export.captureEvents at hev
  simp only [List.mem_map, List.mem_range] at hev
  obtain ⟨i, _, rfl⟩ := hev
  have : (0 : ℚ) ≤ ((i : ℚ) / (n : ℚ)) * 20 := by positivity
  simp only
  linarith

/-- Flat contents of an all-empty bucket table. -/
theorem flatten_replicate_nil {α : Type} (n : Nat) :
    (List.replicate n ([] : List α)).flatten = [] := by
  induction n with
  | zero => rfl
  | succ m ih => simp [List.replicate, ih]

/-! ## Claim theorems -/

/-- Claim C2.  Every trace generator returns at least one snapshot, and
its snapshot at index 0 carries the unmodified input: the sorting and
searching generators start from the input values with the generator's
initial role decoration (only insertion sort pre-marks index 0 sorted),
the graph generators start from the input nodes and edges — ids, positions
and weights untouched — with the all-initial status assignment (start as
`start`, goal as `end` where the generator shows it, everything else
unvisited/white, all edges normal, traversal bookkeeping empty), and the
hash-table generator starts from the table holding exactly the input
key/value pairs before any probe (sentinels `-1`, nothing found; with
well-formed input the table's contents are a permutation of the zipped
input). -/
theorem C2_initial_snapshot :
    (∀ arr : List ℚ,
      1 ≤ (BubbleSort.bubbleSort arr).length ∧
      (BubbleSort.bubbleSort arr).head? = some ⟨arr, [], [], []⟩) ∧
    (∀ arr : List ℚ,
      1 ≤ (InsertionSort.insertionSort arr).length ∧
      (InsertionSort.insertionSort arr).head? =
        some ⟨arr, [], [], [0], -1⟩) ∧
    (∀ arr : List ℚ,
      1 ≤ (MergeSort.mergeSort arr).length ∧
      (MergeSort.mergeSort arr).head? =
        some ⟨arr, [], [], [], [], [], false⟩) ∧
    (∀ arr : List ℚ,
      1 ≤ (QuickSort.quickSort arr).length ∧
      (QuickSort.quickSort arr).head? =
        some ⟨arr, [], [], [], [], [], [], []⟩) ∧
    (∀ (arr : List ℚ) (target : ℚ),
      1 ≤ (LinearSearch.linearSearch arr target).length ∧
      (LinearSearch.linearSearch arr target).head? =
        some ⟨arr, [], [], [], [], [], target⟩) ∧
    (∀ (arr : List ℚ) (target : ℚ),
      1 ≤ (BinarySearch.binarySearch arr target).length ∧
      (BinarySearch.binarySearch arr target).head? =
        some ⟨arr, [], (List.range arr.length).map (fun i => (i : Int)), [],
          target, 0, (arr.length : Int) - 1, -1⟩) ∧
    (∀ (keys : List String) (values : List ℚ) (sk : String),
      1 ≤ (HashTable.hashTableSearch keys values sk).length ∧
      (HashTable.hashTableSearch keys values sk).head? =
        some ⟨HashTable.buildBuckets keys values, sk, -1, -1, false, [],
          -1⟩ ∧
      (keys.length = values.length →
        ((HashTable.buildBuckets keys values).flatten.map
            (fun nd => (nd.key, nd.value))).Perm
          ((keys.zip values).map (fun p => (p.1, some p.2))))) ∧
    (∀ (nodes : List GraphBase.Node) (edges : List GraphBase.Edge)
        (startN : String) (endN : Option String),
      1 ≤ (BFS.breadthFirstSearch nodes edges startN endN).length ∧
      (BFS.breadthFirstSearch nodes edges startN endN).head? =
        some ⟨nodes.map (fun nd =>
            { nd with
                status := if nd.id = startN then .start else .unvisited }),
          edges.map (fun e => { e with status := .normal }),
          [startN], [], none⟩) ∧
    (∀ (nodes : List GraphBase.Node) (edges : List GraphBase.Edge)
        (startN : String) (endN : Option String),
      1 ≤ (DFS.depthFirstSearch nodes edges startN endN).length ∧
      (DFS.depthFirstSearch nodes edges startN endN).head? =
        some ⟨nodes.map (fun nd =>
            { nd with
                status := if nd.id = startN then .start else .unvisited }),
          edges.map (fun e => { e with status := .normal }),
          [startN], [], none⟩) ∧
    (∀ (nodes : List Dijkstra.Node) (edges : List Dijkstra.Edge)
        (startN : String) (endN : Option String),
      1 ≤ (Dijkstra.dijkstra nodes edges startN endN).length ∧
      (Dijkstra.dijkstra nodes edges startN endN).head? =
        some ⟨nodes.map (fun nd =>
            { nd with
                status := if nd.id = startN then .start else .unvisited,
                distance := mapGet (nodes.foldl (fun m n2 =>
                  mapSet m n2.id (if n2.id = startN then 0 else ⊤)) [])
                  nd.id }),
          edges.map (fun e => { e with status := .normal }),
          nodes.foldl (fun m n2 =>
            mapSet m n2.id (if n2.id = startN then 0 else ⊤)) [],
          [], none⟩) ∧
    (∀ (nodes : List Tricolor.Node) (edges : List Tricolor.Edge)
        (startN : String) (endN : Option String),
      1 ≤ (Tricolor.tricolorAlgorithm nodes edges startN endN).length ∧
      (Tricolor.tricolorAlgorithm nodes edges startN endN).head? =
        some ⟨nodes.map (fun nd =>
            { nd with
                status := if nd.id = startN then .start
                  else if some nd.id = endN then .endp else .white,
                color := .white }),
          edges.map (fun e => { e with status := .normal }),
          (nodes.map (fun nd => nd.id)).foldl
            (fun acc i => if i ∈ acc then acc else acc ++ [i]) [],
          [], [], none, [startN], none⟩) ∧
    (∀ (sqrtFn : ℚ → ℚ) (nodes : List AStar.Node) (edges : List AStar.Edge)
        (startN endN : String),
      1 ≤ (AStar.aStar sqrtFn nodes edges startN endN).length ∧
      (AStar.aStar sqrtFn nodes edges startN endN).head? =
        some ⟨nodes.map (fun nd =>
            { nd with
                status := if nd.id = startN then .start
                  else if nd.id = endN then .endp else .unvisited,
                g := AStar.jsOrZero (mapGet (mapSet (nodes.foldl
                  (fun m n2 => mapSet m n2.id ⊤) []) startN 0) nd.id),
                h := AStar.heuristic sqrtFn nodes nd.id endN,
                f := AStar.jsOrZero (mapGet (mapSet (nodes.foldl
                  (fun m n2 => mapSet m n2.id ⊤) []) startN
                  (AStar.heuristic sqrtFn nodes startN endN : WithTop ℚ))
                  nd.id) }),
          edges.map (fun e => { e with status := .normal }),
          [startN], [], none, []⟩) := by
  refine ⟨?_, ?_, ?_, ?_, ?_, ?_, ?_, ?_, ?_, ?_, ?_, ?_⟩
  · exact fun arr => ⟨Nat.succ_le_succ (Nat.zero_le _), rfl⟩
  · exact fun arr => ⟨Nat.succ_le_succ (Nat.zero_le _), rfl⟩
  · exact fun arr => ⟨Nat.succ_le_succ (Nat.zero_le _), rfl⟩
  · exact fun arr => ⟨Nat.succ_le_succ (Nat.zero_le _), rfl⟩
  · exact fun arr target => ⟨Nat.succ_le_succ (Nat.zero_le _), rfl⟩
  · exact fun arr target => ⟨Nat.succ_le_succ (Nat.zero_le _), rfl⟩
  · refine fun keys values sk =>
      ⟨Nat.succ_le_succ (Nat.zero_le _), rfl, fun hlen => ?_⟩
    rw [← HashTable.pairList_eq_zip keys values hlen,
      HashTable.buildBuckets_eq_insertPairs keys values]
    have hperm := (HashTable.insertPairs_flatten_perm
        (HashTable.pairList keys values)
        (List.replicate HashTable.tableSize []) (by simp)).map
        (fun nd => (nd.key, nd.value))
    refine hperm.trans ?_
    have hflat :
        ((List.replicate HashTable.tableSize ([] : HashTable.Bucket)).flatten
            ++ (HashTable.pairList keys values).map
                (fun p => HashTable.HashNode.mk p.1 p.2)).map
          (fun nd => (nd.key, nd.value)) =
          HashTable.pairList keys values := by
      rw [flatten_replicate_nil]
      simp only [List.nil_append, List.map_map]
      exact List.map_id _
    rw [hflat]
  · exact fun nodes edges startN endN =>
      ⟨Nat.succ_le_succ (Nat.zero_le _), rfl⟩
  · exact fun nodes edges startN endN =>
      ⟨Nat.succ_le_succ (Nat.zero_le _), rfl⟩
  · exact fun nodes edges startN endN =>
      ⟨Nat.succ_le_succ (Nat.zero_le _), rfl⟩
  · exact fun nodes edges startN endN =>
      ⟨Nat.succ_le_succ (Nat.zero_le _), rfl⟩
  · exact fun sqrtFn nodes edges startN endN =>
      ⟨Nat.succ_le_succ (Nat.zero_le _), rfl⟩

/-- Witness for C2 at a concrete one-pair hash-table input. -/
theorem C2_witness :
    (["pear"] : List String).length = ([(7 : ℚ)] : List ℚ).length ∧
    ((HashTable.buildBuckets ["pear"] [7]).flatten.map
        (fun nd => (nd.key, nd.value))).Perm
      ((["pear"].zip [(7 : ℚ)]).map (fun p => (p.1, some p.2))) :=
  ⟨rfl, (C2_initial_snapshot.2.2.2.2.2.2.1 ["pear"] [7] "x").2.2 rfl⟩

/-- Claim C1 — counterexample.  The spec's Scenario A asserts that the
final snapshot of `bubbleSort([3,1,2])` has `sorted == {0,1,2}`; the
generated trace's final snapshot marks only `{1,2}` (the outer loop never
marks index 0), so the claim as stated is false. -/
theorem C1_counterexample :
    ((BubbleSort.bubbleSort [3, 1, 2]).getLast?).map
        (fun s => s.sorted.contains 0) = some false := by
  decide

/-- Claim C1 — amended.  `bubbleSort([3,1,2])` ends in a snapshot whose
values are `[1,2,3]` and whose sorted list is `[2,1]` — the set `{1,2}`:
every index of the array except index 0, which the generator never
marks. -/
theorem C1_amended :
    ((BubbleSort.bubbleSort [3, 1, 2]).getLast?).map
        (fun s => (s.values, s.sorted)) = some ([1, 2, 3], [2, 1]) ∧
    ((BubbleSort.bubbleSort [3, 1, 2]).getLast?).map
        (fun s => (s.sorted.contains 0, s.sorted.contains 1,
          s.sorted.contains 2)) = some (false, true, true) := by
  decide

/-- Claim C3.  For a trace of length `n ≥ 1`, any finite sequence of
playback operations (play, pause, next, previous, reset, timer ticks)
starting from the initial cursor keeps the position inside `[0, n-1]`;
since every reachable moment is the end of some operation prefix, the
bound holds at all times. -/
theorem C3_cursor_bounds (n : Nat) (hn : 1 ≤ n)
    (ops : List Playback.Op) :
    Playback.InBounds n (Playback.applyOps n Playback.initialState ops) := by
  apply Playback.applyOps_inBounds n hn ops
  constructor
  · simp [Playback.initialState]
  · simp only [Playback.initialState]
    omega

/-- Witness for C3 at a concrete trace length and operation sequence. -/
theorem C3_witness :
    1 ≤ 2 ∧ Playback.InBounds 2 (Playback.applyOps 2 Playback.initialState
      [.play, .tick, .next, .tick, .prev]) :=
  ⟨by decide, C3_cursor_bounds 2 (by decide)
    [.play, .tick, .next, .tick, .prev]⟩

/-- Claim C4 — counterexample.  With a 3-state trace and the cursor at
position 1 (strictly below `length - 1 = 2`), `playAnimation` moves the
cursor, contradicting the claim that `play()` leaves the position
unchanged in that case. -/
theorem C4_counterexample :
    ((1 : Int) < (3 : Int) - 1) ∧
    (Playback.playAnimation 3 ⟨1, false⟩).currentState ≠ 1 := by
  decide

/-- Claim C4 — amended.  Whenever the trace is non-empty, `playAnimation`
starts playback and resets the cursor to 0 unconditionally — not only
when the position equals `length - 1`. -/
theorem C4_amended (n : Nat) (s : Playback.PlaybackState) (h : 0 < n) :
    (Playback.playAnimation n s).currentState = 0 ∧
    (Playback.playAnimation n s).isPlaying = true := by
  simp [Playback.playAnimation, h]

/-- Witness for the amended C4. -/
theorem C4_witness :
    0 < 3 ∧ (Playback.playAnimation 3 ⟨1, false⟩).currentState = 0 ∧
      (Playback.playAnimation 3 ⟨1, false⟩).isPlaying = true :=
  ⟨by decide, C4_amended 3 ⟨1, false⟩ (by decide)⟩

/-- Claim C5.  Calling the store's `generateStates` twice in a row with
the same algorithm id leaves the store — its `states` field included —
exactly as the first call left it: the second call hits the memoization
guard and returns without constructing anything (the embedding's equality
of the whole store state is the pure rendering of object identity, since
the guarded branch returns the existing state unchanged). -/
theorem C5_select_idempotent (aid : String) (s : Store.StoreState) :
    Store.generateStates aid (Store.generateStates aid s) =
      Store.generateStates aid s := by
  by_cases h : some aid = s.currentAlgorithm
  · have h1 : Store.generateStates aid s = s := by
      unfold Store.generateStates
      rw [if_pos h]
    simp only [h1]
  · have h2 : (Store.generateStates aid s).currentAlgorithm = some aid := by
      unfold Store.generateStates
      rw [if_neg h]
    set t := Store.generateStates aid s with ht
    show Store.generateStates aid t = t
    unfold Store.generateStates
    rw [if_pos h2.symm]

/-- Claim C6 — counterexample.  Even a fully successful export of a
single-frame trace reports the sequence 0, 10, 10, 0, 20, 100: the first
event of `generateGifSimple` resets the percentage to 0 below the capture
stage's last value, so the progress reported across the two stages is not
monotone (and the offending event has stage `processing`, not `error`). -/
theorem C6_counterexample :
    ¬ Export.ProgressMonotone (Export.handleExportEvents 1) := by
  intro h
  unfold Export.ProgressMonotone Export.handleExportEvents
      Export.captureEvents Export.generateGifSimpleEvents at h
  simp only [List.range_succ, List.range_zero, List.nil_append,
    List.map_cons, List.map_nil, List.cons_append, List.nil_append,
    List.chain'_cons] at h
  obtain ⟨-, -, h3, -⟩ := h
  norm_num at h3

/-- Claim C6 — amended.  The reported percentages are non-decreasing
within the frame-capture stage (0, 10, then `10 + 20·i/n`) and within
`generateGifSimple`'s own events (0, 20, 100), and the full successful-run
sequence is exactly the concatenation of the two — but the first
`generateGifSimple` event restarts at 0, so monotonicity holds per stage,
not across the whole export. -/
theorem C6_amended (n : Nat) (h : 1 ≤ n) :
    Export.ProgressMonotone
        (⟨0, .loading, "Loading FFmpeg..."⟩
          :: ⟨10, .processing, "Capturing frames..."⟩
          :: Export.captureEvents n) ∧
    Export.ProgressMonotone Export.generateGifSimpleEvents ∧
    Export.handleExportEvents n =
      (⟨0, .loading, "Loading FFmpeg..."⟩
          :: ⟨10, .processing, "Capturing frames..."⟩
          :: Export.captureEvents n) ++ Export.generateGifSimpleEvents := by
  refine ⟨?_, ?_, by simp [Export.handleExportEvents]⟩
  · unfold Export.ProgressMonotone
    rw [List.chain'_cons']
    constructor
    · intro ev hev
      simp only [List.head?_cons, Option.mem_def, Option.some.injEq] at hev
      subst hev
      norm_num
    · rw [List.chain'_cons']
      refine ⟨?_, Export.captureEvents_chain n⟩
      intro ev hev
      exact Export.captureEvents_ge_ten n ev
        (List.mem_of_mem_head? hev)
  · unfold Export.ProgressMonotone Export.generateGifSimpleEvents
    simp only [List.chain'_cons, List.chain'_singleton, and_true]
    norm_num

/-- Witness for the amended C6 at a two-frame trace. -/
theorem C6_witness :
    1 ≤ 2 ∧
    (Export.ProgressMonotone
        (⟨0, .loading, "Loading FFmpeg..."⟩
          :: ⟨10, .processing, "Capturing frames..."⟩
          :: Export.captureEvents 2) ∧
    Export.ProgressMonotone Export.generateGifSimpleEvents ∧
    Export.handleExportEvents 2 =
      (⟨0, .loading, "Loading FFmpeg..."⟩
          :: ⟨10, .processing, "Capturing frames..."⟩
          :: Export.captureEvents 2) ++ Export.generateGifSimpleEvents) :=
  ⟨by decide, C6_amended 2 (by decide)⟩

/-- Claim C7 — counterexample.  `hashTableSearch` given malformed input
(two keys, one value: the second key's value is `undefined`) signals
nothing: it returns a complete five-state trace that even ends with
`found = true`.  No `InvalidInputError` exists anywhere in the code. -/
theorem C7_counterexample :
    HashTable.hashTableSearch ["apple", "banana"] [1] "banana" ≠ [] ∧
    (HashTable.hashTableSearch ["apple", "banana"] [1] "banana").length = 5 ∧
    ((HashTable.hashTableSearch ["apple", "banana"] [1] "banana").getLast?).map
        (fun s => (s.found, s.buckets.flatten.map (fun nd => nd.value))) =
      some (true, [some 1, none]) := by
  decide

/-- Claim C7 — amended.  The generators perform no input validation: for
*every* input, malformed or not, `hashTableSearch` totally returns a
fully-built trace of at least three snapshots whose final snapshot carries
the search key's hash — no error value exists to signal. -/
theorem C7_amended (keys : List String) (values : List ℚ) (sk : String) :
    3 ≤ (HashTable.hashTableSearch keys values sk).length ∧
    ((HashTable.hashTableSearch keys values sk).getLast?).map
        (fun s => s.hashValue) =
      some ((HashTable.hashString sk : Nat) : Int) := by
  unfold HashTable.hashTableSearch
  dsimp only
  split
  · constructor
    · simp
    · simp
  · rename_i node rest heq
    have hwalk := HashTable.chainWalk_ne_nil (HashTable.buildBuckets keys values)
      sk (HashTable.hashString sk) (node :: rest) 0
    constructor
    · simp
    · rw [List.getLast?_cons_cons, List.getLast?_cons_cons]
      obtain ⟨w, ws, hw⟩ := List.exists_cons_of_ne_nil hwalk
      rw [hw, List.getLast?_cons_cons,
        List.getLast?_eq_getLast_of_ne_nil (List.cons_ne_nil w ws)]
      have hmem : (w :: ws).getLast (List.cons_ne_nil w ws) ∈ (w :: ws) :=
        List.getLast_mem _
      have hall : ∀ s ∈ (w :: ws), s.hashValue =
          ((HashTable.hashString sk : Nat) : Int) := by
        rw [← hw]
        exact HashTable.chainWalk_hashValue _ sk _ (node :: rest) 0
      exact congrArg some (hall _ hmem)

/-- Claim C8.  Scenario D: searching `'cherry'` among the three inserted
fruit keys ends in a snapshot with `found = true` whose current bucket is
`hash('cherry') mod 10` (which evaluates to 3). -/
theorem C8_scenarioD :
    ((HashTable.hashTableSearch ["apple", "banana", "cherry"] [1, 2, 3]
        "cherry").getLast?).map (fun s => (s.found, s.currentBucket)) =
      some (true, ((HashTable.hashString "cherry" : Nat) : Int)) ∧
    HashTable.hashString "cherry" = 3 := by
  decide

/-- Claim C9 — counterexample.  An index lying in both `found` and
`comparing` is rendered as `comparing`, not `found`: the renderer's
if/else-if chain tests `comparing` first and `found` last, the opposite of
the claimed precedence. -/
theorem C9_counterexample :
    Render.barStatus [0] [] [] none [] [] [] [] [] [0] 0 =
        Render.BarRole.comparing ∧
      Render.BarRole.comparing ≠ Render.BarRole.found := by
  decide

/-- Claim C9 — amended.  The renderer assigns the *first* matching role in
the fixed order comparing, swapping, sorted, key-as-pivot, left, right,
pivot, partition, searching, found (normal when none match) — so overlaps
resolve toward `comparing`, and `found` has the *lowest* precedence of the
role sets, not the highest. -/
theorem C9_amended (comparing swapping sorted : List Nat) (key : Option Int)
    (left right pivot partition searching found : List Nat) (index : Nat) :
    Render.barStatus comparing swapping sorted key left right pivot
        partition searching found index =
      Render.firstMatch
        [(.comparing, comparing.contains index),
         (.swapping, swapping.contains index),
         (.sorted, sorted.contains index),
         (.pivot, key == some (index : Int)),
         (.left, left.contains index),
         (.right, right.contains index),
         (.pivot, pivot.contains index),
         (.partition, partition.contains index),
         (.searching, searching.contains index),
         (.found, found.contains index)] := rfl

/-- Claim C10.  For every key, the internal hash lands strictly inside the
bucket array: `hash` ends in `Math.abs(...) % 10`, and the built table
always has exactly ten buckets, so `buckets[hashValue]` is in bounds even
for keys whose 32-bit accumulator is negative. -/
theorem C10_hash_bucket_safe (key : String) (keys : List String)
    (values : List ℚ) :
    HashTable.hashString key < (HashTable.buildBuckets keys values).length ∧
    (HashTable.buildBuckets keys values).length = HashTable.tableSize := by
  refine ⟨?_, HashTable.buildBuckets_length keys values⟩
  rw [HashTable.buildBuckets_length]
  exact HashTable.hashString_lt_tableSize key

end Algtrax
